import Mathlib

/-!
# Parking-permit request system

A shallow embedding of the validators (`client/src/app/UnitTest/validation.js`),
the image codec and the document routes (`server/routes/DocumentRoutes.js`) and
the submission form (`client/src/app/[ParkingFile]/page.js`), with the
properties proved about them.

Conventions of the embedding:

* a JavaScript string is the list of its characters (`Str`);
* the regular-expression literals of the sources are values of `Regex`, run by a
  backtracking matcher with continuations (`Regex.run`), greedy quantifiers
  first, capture groups recorded in the order in which they close;
* `Date.now()` is an explicit argument `now`, the file system and the document
  collection are explicit state;
* platform calls (`fs`, `path`, `Buffer`, the document store) are modelled by
  their documented behaviour, POSIX for paths; `fs` calls fail on a NUL in the
  path, on a path longer than `PATH_MAX` or a file name longer than `NAME_MAX`,
  on a missing or non-directory parent and on a target of the wrong kind;
  refusals that the content of the file system does not decide (permissions,
  space) are not represented;
* `models/Document.js` is not among the sources: the paths its schema declares
  `required` are part of the state the routes act on (`World.schema`).
-/

namespace ParkingPermit

/-! ## Strings and regular expressions -/

/-- A JavaScript string, as the list of its characters. -/
abbrev Str := List Char

/-- The regular expressions the sources use: a literal text, a one-character
class, `C+` for a class `C`, concatenation and a capturing group `( r )`. -/
inductive Regex where
  | lit (l : Str) : Regex
  | cls (p : Char → Bool) : Regex
  | plus (p : Char → Bool) : Regex
  | seq (a b : Regex) : Regex
  | group (r : Regex) : Regex

/-- Consumes the literal text `l` at the head of the input, if it is there. -/
def dropLit : Str → Str → Option Str
  | [], s => some s
  | _ :: _, [] => none
  | c :: cs, x :: xs => if x = c then dropLit cs xs else none

/-- Greedy repetition of a class: takes one more character when it can, and
falls back to the continuation `k` at the current position when the longer
attempt fails. -/
def greedy {α : Type} (p : Char → Bool) (k : Str → Option α) : Str → Option α
  | [] => k []
  | c :: cs =>
    if p c then
      match greedy p k cs with
      | some r => some r
      | none => k (c :: cs)
    else k (c :: cs)

/-- Backtracking matcher: `r.run s caps k` matches `r` at the head of `s` and
hands the rest of the input and the captures so far to the continuation `k`. -/
def Regex.run : Regex → Str → List Str → (Str → List Str → Option (List Str)) →
    Option (List Str)
  | .lit l, s, caps, k =>
    match dropLit l s with
    | some rest => k rest caps
    | none => none
  | .cls p, s, caps, k =>
    match s with
    | c :: cs => if p c then k cs caps else none
    | [] => none
  | .plus p, s, caps, k =>
    match s with
    | c :: cs => if p c then greedy p (fun rest => k rest caps) cs else none
    | [] => none
  | .seq a b, s, caps, k => a.run s caps (fun rest caps1 => b.run rest caps1 k)
  | .group r, s, caps, k =>
    r.run s caps (fun rest caps1 => k rest (caps1 ++ [s.take (s.length - rest.length)]))

/-- The result of `s.match(/^r$/)` for a pattern anchored at both ends (no `m`
flag, so `$` is the end of the input): `none` for `null`, otherwise the array
of the whole match followed by the captured groups. -/
def Regex.matchAnchored (r : Regex) (s : Str) : Option (List Str) :=
  match r.run s [] (fun rest caps => if rest = [] then some caps else none) with
  | some caps => some (s :: caps)
  | none => none

/-- The result of `/^r$/.test(s)`. -/
def Regex.test (r : Regex) (s : Str) : Bool :=
  (r.matchAnchored s).isSome

/-- The result of `s.replace(/C/g, '')` for a one-character class `C`: every
character of the class is removed. -/
def removeAll (p : Char → Bool) (s : Str) : Str :=
  s.filter (fun c => !p c)

/-- The class `\D`: every character that is not one of `0`-`9`. -/
def nonDigit (c : Char) : Bool :=
  !c.isDigit

/-- The class `[a-zA-Z0-9._%+-]`. -/
def emailLocalClass (c : Char) : Bool :=
  c.isLower || c.isUpper || c.isDigit ||
    c == '.' || c == '_' || c == '%' || c == '+' || c == '-'

/-! ## Validators (`validation.js`) -/

/-- The object a validator returns: `{ isValid, error }`, `error` absent on
success. -/
structure ValidationResult where
  isValid : Bool
  error : Option String
deriving DecidableEq, Repr

/-- Embedding of `isValidId`. -/
def isValidId (id : Str) : ValidationResult :=
  let id := removeAll nonDigit id
  if id.length ≠ 9 then
    { isValid := false, error := some "ID must have 9 digits exactly." }
  else
    { isValid := true, error := none }

/-- The pattern `/^[a-zA-Z0-9._%+-]+@sce\.edu$/` (anchors applied by
`Regex.test`). -/
def sceEmailRegex : Regex :=
  .seq (.plus emailLocalClass) (.lit "@sce.edu".toList)

/-- Embedding of `isValidEmail`. -/
def isValidEmail (email : Str) : ValidationResult :=
  if !sceEmailRegex.test email then
    { isValid := false, error := some "Invalid email format. It must end with @sce.edu" }
  else
    { isValid := true, error := none }

/-! ## JavaScript values and the platform -/

/-- The values a field of a JSON request body takes in this model: absent
(`undefined`), `null`, or a string. -/
inductive JsVal where
  | undefined : JsVal
  | null : JsVal
  | str (s : Str) : JsVal
deriving DecidableEq, Repr

/-- Truthiness: `!v` is false exactly for a non-empty string. -/
def JsVal.truthy : JsVal → Bool
  | .str s => !s.isEmpty
  | _ => false

/-- Conversion to text inside a template literal. -/
def JsVal.toText : JsVal → Str
  | .undefined => "undefined".toList
  | .null => "null".toList
  | .str s => s

/-- A thrown exception: `new Error(message)`, a `TypeError` of the engine or of
a platform call (its message text is not modelled), a system error of `fs` by
its code, or a `ValidationError` of the model layer. -/
inductive JsError where
  | error (message : String) : JsError
  | typeError : JsError
  | system (code : String) : JsError
  | validation : JsError
deriving DecidableEq, Repr

/-- Bytes, as natural numbers below 256. -/
abbrev Bytes := List Nat

/-- The file system: the directories that exist and the files with their
content, by path. -/
structure FileSystem where
  dirs : List Str
  files : List (Str × Bytes)
deriving DecidableEq, Repr

/-- Embedding of `fs.existsSync`. -/
def FileSystem.existsSync (fs : FileSystem) (p : Str) : Bool :=
  fs.dirs.contains p || fs.files.any (fun f => f.1 == p)

/-- The content of the file at `p`, if there is one. -/
def FileSystem.readFile (fs : FileSystem) (p : Str) : Option Bytes :=
  (fs.files.find? (fun f => f.1 == p)).map (fun f => f.2)

/-- Embedding of `String.prototype.split` with a one-character separator. -/
def jsSplit (sep : Char) : Str → List Str
  | [] => [[]]
  | c :: cs =>
    if c = sep then [] :: jsSplit sep cs
    else
      match jsSplit sep cs with
      | [] => [[c]]
      | h :: t => (c :: h) :: t

/-- The longest file name of the platform, in bytes (`NAME_MAX` of Linux). -/
def nameMax : Nat := 255

/-- The longest path of the platform, in bytes (`PATH_MAX` of Linux, less the
terminating NUL). -/
def pathMax : Nat := 4095

/-- The length of a text in bytes, encoded in UTF-8. -/
def utf8Length (s : Str) : Nat :=
  (s.map Char.utf8Size).sum

/-- The directory part of a relative path: `none` for a path of one segment,
whose directory is the working directory. -/
def parentDir (p : Str) : Option Str :=
  match (jsSplit '/' p).dropLast with
  | [] => none
  | segs => some (['/'].intercalate segs)

/-- A directory above the working directory, a path of `..` segments only:
such a directory exists in every file system. -/
def isAbove (d : Str) : Bool :=
  (jsSplit '/' d).all (fun seg => seg == ['.', '.'])

/-- The refusal of `fs` to create an entry at the path `p`, if any: a NUL in
the path (`TypeError`), a path longer than `PATH_MAX` or a segment longer than
`NAME_MAX`, a parent that is a regular file, a parent that does not exist. -/
def FileSystem.entryError (fs : FileSystem) (p : Str) : Option JsError :=
  if p.contains (Char.ofNat 0) then some .typeError
  else if utf8Length p > pathMax ||
      (jsSplit '/' p).any (fun seg => utf8Length seg > nameMax) then
    some (.system "ENAMETOOLONG")
  else
    match parentDir p with
    | none => none
    | some d =>
      if fs.dirs.contains d || isAbove d then none
      else if fs.files.any (fun f => f.1 == d) then some (.system "ENOTDIR")
      else some (.system "ENOENT")

/-- Embedding of `fs.mkdirSync`: the directory is created, unless the path is
refused or an entry exists there. -/
def FileSystem.mkdirSync (fs : FileSystem) (p : Str) : Except JsError FileSystem :=
  match fs.entryError p with
  | some e => .error e
  | none =>
    if fs.existsSync p then .error (.system "EEXIST")
    else .ok { fs with dirs := p :: fs.dirs }

/-- Embedding of `fs.writeFileSync`: the file at `p` is created or replaced,
unless the path is refused or is a directory. -/
def FileSystem.writeFileSync (fs : FileSystem) (p : Str) (data : Bytes) :
    Except JsError FileSystem :=
  match fs.entryError p with
  | some e => .error e
  | none =>
    if fs.dirs.contains p then .error (.system "EISDIR")
    else .ok { fs with files := (p, data) :: fs.files.filter (fun f => !(f.1 == p)) }

/-- The segment loop of `path.normalize` (POSIX): empty and `.` segments are
dropped, `..` removes the segment before it, or is kept when there is none to
remove and the path is relative. The stack holds the kept segments, last first. -/
def normalizeSegments (allowAboveRoot : Bool) : List Str → List Str → List Str
  | stack, [] => stack.reverse
  | stack, seg :: segs =>
    if seg = [] ∨ seg = ['.'] then normalizeSegments allowAboveRoot stack segs
    else if seg = ['.', '.'] then
      match stack with
      | top :: below =>
        if top = ['.', '.'] then
          normalizeSegments allowAboveRoot (if allowAboveRoot then seg :: stack else stack) segs
        else normalizeSegments allowAboveRoot below segs
      | [] => normalizeSegments allowAboveRoot (if allowAboveRoot then [seg] else []) segs
    else normalizeSegments allowAboveRoot (seg :: stack) segs

/-- Embedding of `path.normalize` (POSIX). -/
def pathNormalize (p : Str) : Str :=
  if p = [] then ['.']
  else
    let isAbsolute := p.head? = some '/'
    let trailingSeparator := p.getLast? = some '/'
    let body := ['/'].intercalate (normalizeSegments (!isAbsolute) [] (jsSplit '/' p))
    if body = [] then
      if isAbsolute then ['/'] else if trailingSeparator then ['.', '/'] else ['.']
    else
      let body := if trailingSeparator then body ++ ['/'] else body
      if isAbsolute then '/' :: body else body

/-- Embedding of `path.join` (POSIX): the non-empty arguments joined by `/`,
then normalized. -/
def pathJoin (parts : List Str) : Str :=
  pathNormalize (['/'].intercalate (parts.filter (fun p => !p.isEmpty)))

/-- The value of a base64 character, for the standard and the URL-safe
alphabet; `none` for any other character. -/
def unbase64 (c : Char) : Option Nat :=
  if c.isUpper then some (c.toNat - 65)
  else if c.isLower then some (c.toNat - 71)
  else if c.isDigit then some (c.toNat + 4)
  else if c = '+' ∨ c = '-' then some 62
  else if c = '/' ∨ c = '_' then some 63
  else none

/-- Bytes of a sequence of 6-bit values, four values giving three bytes; a
final group of three gives two bytes, of two gives one. -/
def bytesOfSextets : List Nat → Bytes
  | a :: b :: c :: d :: rest =>
    (a * 4 + b / 16) % 256 :: ((b % 16) * 16 + c / 4) % 256 :: ((c % 4) * 64 + d) % 256 ::
      bytesOfSextets rest
  | [a, b, c] => [(a * 4 + b / 16) % 256, ((b % 16) * 16 + c / 4) % 256]
  | [a, b] => [(a * 4 + b / 16) % 256]
  | _ => []

/-- The UTF-16 code units of a text: one for a character of the basic plane, a
surrogate pair for any other. -/
def utf16Units (s : Str) : List Nat :=
  s.flatMap (fun c =>
    if c.toNat < 65536 then [c.toNat]
    else [55296 + (c.toNat - 65536) / 1024, 56320 + (c.toNat - 65536) % 1024])

/-- Decoding of a text under the encoding `'base64'` of `Buffer`: each code
unit is reduced to its low byte, bytes outside the alphabet are skipped and
decoding stops at the first padding byte `=`. -/
def base64Decode (s : Str) : Bytes :=
  bytesOfSextets
    ((((utf16Units s).map (fun u => Char.ofNat (u % 256))).takeWhile
      (fun c => c != '=')).filterMap unbase64)

/-- The character of a 6-bit value in the standard base64 alphabet. -/
def base64Char (n : Nat) : Char :=
  if n < 26 then Char.ofNat (n + 65)
  else if n < 52 then Char.ofNat (n + 71)
  else if n < 62 then Char.ofNat (n - 4)
  else if n = 62 then '+'
  else '/'

/-- Standard base64 encoding with padding (RFC 4648), the encoding of the
payload of a data URI. -/
def base64Encode : Bytes → Str
  | a :: b :: c :: rest =>
    base64Char (a / 4) :: base64Char ((a % 4) * 16 + b / 16) ::
      base64Char ((b % 16) * 4 + c / 64) :: base64Char (c % 64) :: base64Encode rest
  | [a, b] => [base64Char (a / 4), base64Char ((a % 4) * 16 + b / 16), base64Char ((b % 16) * 4), '=']
  | [a] => [base64Char (a / 4), base64Char ((a % 4) * 16), '=', '=']
  | [] => []

/-! ## Image codec (`DocumentRoutes.js`, `saveBase64Image`) -/

/-- The class `[A-Za-z-+\/]`. -/
def mimeClass (c : Char) : Bool :=
  c.isUpper || c.isLower || c == '-' || c == '+' || c == '/'

/-- The class `.` (no `s` flag): any character but a line terminator. -/
def dotClass (c : Char) : Bool :=
  !(c == '\n' || c == '\r' || c == '\u2028' || c == '\u2029')

/-- The pattern `/^data:([A-Za-z-+\/]+);base64,(.+)$/`. -/
def dataUriRegex : Regex :=
  .seq (.lit "data:".toList)
    (.seq (.group (.plus mimeClass))
      (.seq (.lit ";base64,".toList) (.group (.plus dotClass))))

/-- Text of an array element inside a template literal: a missing element is
`undefined`. -/
def elementText : Option Str → Str
  | some s => s
  | none => "undefined".toList

/-- Embedding of `saveBase64Image`: the outcome is the thrown exception (its
own, or that of `fs.mkdirSync` or `fs.writeFileSync`) or the returned file
name, together with the file system the call leaves behind. -/
def saveBase64Image (base64String : JsVal) (student_id : JsVal) (now : Nat)
    (fs : FileSystem) : Except JsError Str × FileSystem :=
  match base64String with
  | .str text =>
    match dataUriRegex.matchAnchored text with
    | some [_, fileType, base64Data] =>
      let extension := (jsSplit '/' fileType).get? 1
      let fileName := "license-".toList ++ student_id.toText ++ "-".toList ++
        Nat.toDigits 10 now ++ ".".toList ++ elementText extension
      let filePath := pathJoin ["uploads".toList, fileName]
      match (if !fs.existsSync "uploads".toList then fs.mkdirSync "uploads".toList
          else .ok fs) with
      | .error err => (.error err, fs)
      | .ok fs1 =>
        match fs1.writeFileSync filePath (base64Decode base64Data) with
        | .error err => (.error err, fs1)
        | .ok fs2 => (.ok fileName, fs2)
    | _ => (.error (.error "Invalid base64 string"), fs)
  | _ => (.error .typeError, fs)

/-! ## Document routes (`DocumentRoutes.js`) -/

/-- Modelled from the spec: the `Document` model (`models/Document.js` is not
among the sources). The data model of the spec gives a parking application nine
attributes, eight free-text fields and the reference to the licence image; the
routes name the paths. A stored attribute holds a string, or `null` after an
update that sets it so. -/
structure Document where
  first_name : JsVal
  last_name : JsVal
  email : JsVal
  student_id : JsVal
  phone_number : JsVal
  Study_Department : JsVal
  car_type : JsVal
  car_number : JsVal
  licenseImage : JsVal
deriving DecidableEq, Repr

/-- The object `parking_application` of a request body of `POST /documents`. -/
structure Application where
  first_name : JsVal
  last_name : JsVal
  email : JsVal
  student_id : JsVal
  phone_number : JsVal
  Study_Department : JsVal
  car_type : JsVal
  car_number : JsVal
  license_image : JsVal
deriving DecidableEq, Repr

/-- The request body of `POST /documents`; `parking_application` is `none` when
the body has no such object. -/
structure PostBody where
  parking_application : Option Application
deriving DecidableEq, Repr

/-- The request body of `PUT /documents/:student_id`: the keys the handler reads
and the keys of the schema. Any other key is dropped by the model layer (strict
mode) and is not represented. -/
structure PutBody where
  first_name : JsVal
  last_name : JsVal
  email : JsVal
  student_id : JsVal
  phone_number : JsVal
  Study_Department : JsVal
  car_type : JsVal
  car_number : JsVal
  license_image : JsVal
  licenseImage : JsVal
deriving DecidableEq, Repr

/-- The JSON payload of a response. -/
inductive ResBody where
  | message (message : String) : ResBody
  | failure (message : String) (error : JsError) : ResBody
  | created (message : String) (document : Document) : ResBody
  | document (document : Document) : ResBody
deriving DecidableEq, Repr

/-- A response: `res.status(status).json(body)`. -/
structure Response where
  status : Nat
  body : ResBody
deriving DecidableEq, Repr

/-- The validators of the `Document` schema. `models/Document.js` is not among
the sources, so what it declares is a parameter: for each path, whether the
schema declares it `required`. -/
structure DocumentSchema where
  first_name : Bool
  last_name : Bool
  email : Bool
  student_id : Bool
  phone_number : Bool
  Study_Department : Bool
  car_type : Bool
  car_number : Bool
  licenseImage : Bool
deriving DecidableEq, Repr

/-- Modelled from the spec: the schema under which every attribute of a parking
application is required, as the invariant of the data model reads (all eight
business fields plus the image must be non-empty) and as the one schema among
the sources (`index.js`) declares its paths. -/
def requiredSchema : DocumentSchema :=
  { first_name := true, last_name := true, email := true, student_id := true,
    phone_number := true, Study_Department := true, car_type := true, car_number := true,
    licenseImage := true }

/-- The validator `required` of a string path: it rejects an absent value,
`null` and the empty string. -/
def requiredOk (required : Bool) (v : JsVal) : Bool :=
  !required || v.truthy

/-- Validation of a document before it is saved: the validators of every path. -/
def DocumentSchema.validate (schema : DocumentSchema) (doc : Document) : Bool :=
  requiredOk schema.first_name doc.first_name &&
    requiredOk schema.last_name doc.last_name &&
    requiredOk schema.email doc.email &&
    requiredOk schema.student_id doc.student_id &&
    requiredOk schema.phone_number doc.phone_number &&
    requiredOk schema.Study_Department doc.Study_Department &&
    requiredOk schema.car_type doc.car_type &&
    requiredOk schema.car_number doc.car_number &&
    requiredOk schema.licenseImage doc.licenseImage

/-- An update validator: the validators of a path run on the value the update
sets there, and do not run on a path the update does not carry. -/
def updateOk (required : Bool) (v : JsVal) : Bool :=
  match v with
  | .undefined => true
  | v => requiredOk required v

/-- The state the routes act on: the document collection, in the order the
store returns it, the file system, and the schema of the collection. -/
structure World where
  documents : List Document
  fs : FileSystem
  schema : DocumentSchema
deriving DecidableEq, Repr

/-- Embedding of the handler of `router.post('/documents')`; `newDocument.save()`
validates the document against the schema and throws a `ValidationError` when a
validator rejects it. -/
def postDocuments (body : PostBody) (now : Nat) (w : World) : Response × World :=
  match body.parking_application with
  | none => ({ status := 400, body := .failure "Error creating document" .typeError }, w)
  | some parking_application =>
    if !parking_application.first_name.truthy ||
        !parking_application.last_name.truthy ||
        !parking_application.email.truthy ||
        !parking_application.student_id.truthy ||
        !parking_application.phone_number.truthy ||
        !parking_application.Study_Department.truthy ||
        !parking_application.car_type.truthy ||
        !parking_application.car_number.truthy ||
        !parking_application.license_image.truthy then
      ({ status := 400, body := .message "All fields are required." }, w)
    else
      match saveBase64Image parking_application.license_image
          parking_application.student_id now w.fs with
      | (.error err, fs) =>
        ({ status := 400, body := .failure "Error creating document" err }, { w with fs := fs })
      | (.ok fileName, fs) =>
        let newDocument : Document :=
          { first_name := parking_application.first_name
            last_name := parking_application.last_name
            email := parking_application.email
            student_id := parking_application.student_id
            phone_number := parking_application.phone_number
            Study_Department := parking_application.Study_Department
            car_type := parking_application.car_type
            car_number := parking_application.car_number
            licenseImage := .str fileName }
        if !w.schema.validate newDocument then
          ({ status := 400, body := .failure "Error creating document" .validation },
            { w with fs := fs })
        else
          ({ status := 201, body := .created "Document created successfully" newDocument },
            { w with documents := w.documents ++ [newDocument], fs := fs })

/-- One path of a `$set` update: a key the body carries replaces the stored
value, an absent key leaves it. -/
def setPath (stored value : JsVal) : JsVal :=
  match value with
  | .undefined => stored
  | v => v

/-- The update `{ $set: updatedData }` applied to a document: every path of the
schema that the body carries is set; `license_image` is not a path of the
schema. -/
def applySet (updatedData : PutBody) (doc : Document) : Document :=
  { first_name := setPath doc.first_name updatedData.first_name
    last_name := setPath doc.last_name updatedData.last_name
    email := setPath doc.email updatedData.email
    student_id := setPath doc.student_id updatedData.student_id
    phone_number := setPath doc.phone_number updatedData.phone_number
    Study_Department := setPath doc.Study_Department updatedData.Study_Department
    car_type := setPath doc.car_type updatedData.car_type
    car_number := setPath doc.car_number updatedData.car_number
    licenseImage := setPath doc.licenseImage updatedData.licenseImage }

/-- The update validators of `{ $set: updatedData }` under `runValidators:
true`: the validators of every path of the schema that the body carries. -/
def DocumentSchema.validateUpdate (schema : DocumentSchema) (updatedData : PutBody) : Bool :=
  updateOk schema.first_name updatedData.first_name &&
    updateOk schema.last_name updatedData.last_name &&
    updateOk schema.email updatedData.email &&
    updateOk schema.student_id updatedData.student_id &&
    updateOk schema.phone_number updatedData.phone_number &&
    updateOk schema.Study_Department updatedData.Study_Department &&
    updateOk schema.car_type updatedData.car_type &&
    updateOk schema.car_number updatedData.car_number &&
    updateOk schema.licenseImage updatedData.licenseImage

/-- The first document whose `student_id` equals the given one is updated and
returned, with the collection after the update; `none` when there is none. -/
def updateFirst (student_id : Str) (update : Document → Document) :
    List Document → Option Document × List Document
  | [] => (none, [])
  | d :: ds =>
    if d.student_id = .str student_id then (some (update d), update d :: ds)
    else
      let r := updateFirst student_id update ds
      (r.1, d :: r.2)

/-- Embedding of `Document.findOneAndUpdate({ student_id }, { $set: updatedData },
{ new: true, runValidators: true })`: the update validators run first and a
rejection throws a `ValidationError`; then the first document whose
`student_id` equals the given one is updated and returned, `null` when there is
none. -/
def findOneAndUpdate (schema : DocumentSchema) (student_id : Str) (updatedData : PutBody)
    (documents : List Document) : Except JsError (Option Document × List Document) :=
  if !schema.validateUpdate updatedData then .error .validation
  else .ok (updateFirst student_id (applySet updatedData) documents)

/-- Embedding of the handler of `router.put('/documents/:student_id')`. -/
def putDocument (student_id : Str) (updatedData : PutBody) (w : World) : Response × World :=
  if !updatedData.first_name.truthy ||
      !updatedData.last_name.truthy ||
      !updatedData.email.truthy ||
      !updatedData.phone_number.truthy ||
      !updatedData.Study_Department.truthy ||
      !updatedData.car_type.truthy ||
      !updatedData.car_number.truthy ||
      !updatedData.license_image.truthy then
    ({ status := 400, body := .message "All fields are required." }, w)
  else
    match findOneAndUpdate w.schema student_id updatedData w.documents with
    | .error err => ({ status := 400, body := .failure "Error updating document" err }, w)
    | .ok (none, _) => ({ status := 404, body := .message "Document not found" }, w)
    | .ok (some updatedDocument, documents) =>
      ({ status := 200, body := .document updatedDocument }, { w with documents := documents })

/-- A request to one of the two writing routes. -/
inductive Request where
  | post (body : PostBody) (now : Nat) : Request
  | put (student_id : Str) (body : PutBody) : Request
deriving DecidableEq, Repr

/-- The state after a request is handled. -/
def step (w : World) : Request → World
  | .post body now => (postDocuments body now w).2
  | .put student_id body => (putDocument student_id body w).2

/-- The state after a sequence of requests, handled one after the other. -/
def run (w : World) (reqs : List Request) : World :=
  reqs.foldl step w

/-- The state before any request: no document, no file, no directory; the
schema is the one modelled from the spec. -/
def World.empty : World :=
  { documents := [], fs := { dirs := [], files := [] }, schema := requiredSchema }

/-- A text attribute is non-empty: it holds a string of at least one character. -/
def nonEmptyField (v : JsVal) : Bool :=
  v.truthy

/-- Every attribute of a stored application is non-empty. -/
def Document.complete (d : Document) : Bool :=
  nonEmptyField d.first_name && nonEmptyField d.last_name && nonEmptyField d.email &&
    nonEmptyField d.student_id && nonEmptyField d.phone_number &&
    nonEmptyField d.Study_Department && nonEmptyField d.car_type &&
    nonEmptyField d.car_number && nonEmptyField d.licenseImage

/-! ## Submission form (`[ParkingFile]/page.js`, `handleSignUp`) -/

/-- What `handleSignUp` does before it awaits the response: it alerts and
returns, or it sends the state `parkingData` to `POST /documents`. -/
inductive SignUpAction where
  | alert (text : String) : SignUpAction
  | send (body : PostBody) : SignUpAction
deriving DecidableEq, Repr

/-- Embedding of the checks of `handleSignUp` on the state
`parkingData = { parking_application }`. -/
def handleSignUp (parking_application : Application) : SignUpAction :=
  if !parking_application.first_name.truthy ||
      !parking_application.last_name.truthy ||
      !parking_application.student_id.truthy ||
      !parking_application.email.truthy ||
      !parking_application.phone_number.truthy ||
      !parking_application.Study_Department.truthy ||
      !parking_application.car_type.truthy ||
      !parking_application.car_number.truthy then
    .alert "Please fill in all fields!"
  else if !parking_application.license_image.truthy then
    .alert "Please select a license file!"
  else
    .send { parking_application := some parking_application }

/-! ## Export and read routes, and the router (`DocumentRoutes.js`) -/

/-- A column definition of a worksheet: `{ header, key, width }`. -/
structure Column where
  header : String
  key : String
  width : Nat
deriving DecidableEq, Repr

/-- A worksheet of the spreadsheet library: its name, its column definitions and
its rows of cells, first row first. -/
structure Worksheet where
  name : String
  columns : List Column
  rows : List (List JsVal)
deriving DecidableEq, Repr

/-- A workbook: its worksheets. -/
structure Workbook where
  worksheets : List Worksheet
deriving DecidableEq, Repr

/-- Embedding of the assignment `worksheet.columns = columns`: the definitions
are stored and the first row of the sheet becomes the row of the headers. -/
def Worksheet.setColumns (ws : Worksheet) (columns : List Column) : Worksheet :=
  { ws with
    columns := columns
    rows := columns.map (fun c => JsVal.str c.header.toList) :: ws.rows.drop 1 }

/-- Embedding of `worksheet.addRow(object)`: a row is appended after the last
one, the value of each column being the value the object holds under the key of
the column. -/
def Worksheet.addRow (ws : Worksheet) (object : List (String × JsVal)) : Worksheet :=
  { ws with
    rows := ws.rows ++ [ws.columns.map (fun c => (object.lookup c.key).getD .undefined)] }

/-- What a response carries: a JSON payload of the writing routes, a JSON array
of documents, or a workbook in the `xlsx` format. -/
inductive Payload where
  | json (body : ResBody) : Payload
  | documents (documents : List Document) : Payload
  | workbook (workbook : Workbook) : Payload
deriving DecidableEq, Repr

/-- A response of the router: status, the headers set with `res.setHeader`, and
the payload. -/
structure HttpResponse where
  status : Nat
  headers : List (String × String)
  payload : Payload
deriving DecidableEq, Repr

/-- Embedding of the handler of `router.get('/documents')`. -/
def getDocuments (w : World) : HttpResponse :=
  { status := 200, headers := [], payload := .documents w.documents }

/-- Embedding of `Document.findOne({ student_id })`: the first document whose
`student_id` equals the given one. -/
def findOne (student_id : Str) (documents : List Document) : Option Document :=
  documents.find? (fun d => d.student_id == .str student_id)

/-- Embedding of the handler of `router.get('/documents/:student_id')`. -/
def getDocument (student_id : Str) (w : World) : HttpResponse :=
  match findOne student_id w.documents with
  | none =>
    { status := 404, headers := [],
      payload := .json (.message "No document found for this student.") }
  | some updatedDocument =>
    { status := 200, headers := [], payload := .json (.document updatedDocument) }

/-- The column definitions of the export, as the handler assigns them. -/
def excelColumns : List Column :=
  [ { header := "First Name", key := "first_name", width := 20 },
    { header := "Last Name", key := "last_name", width := 20 },
    { header := "Email", key := "email", width := 30 },
    { header := "Student ID", key := "student_id", width := 15 },
    { header := "Phone Number", key := "phone_number", width := 20 },
    { header := "Study Department", key := "Study_Department", width := 25 },
    { header := "Car Type", key := "car_type", width := 20 },
    { header := "Car Number", key := "car_number", width := 15 },
    { header := "License Image", key := "licenseImage", width := 30 } ]

/-- The object the export passes to `addRow` for a document. -/
def excelRowObject (doc : Document) : List (String × JsVal) :=
  [ ("first_name", doc.first_name),
    ("last_name", doc.last_name),
    ("email", doc.email),
    ("student_id", doc.student_id),
    ("phone_number", doc.phone_number),
    ("Study_Department", doc.Study_Department),
    ("car_type", doc.car_type),
    ("car_number", doc.car_number),
    ("licenseImage", doc.licenseImage) ]

/-- Embedding of the handler of `router.get('/documents/excel')`. -/
def getDocumentsExcel (w : World) : HttpResponse :=
  let documents := w.documents
  if documents.length = 0 then
    { status := 404, headers := [],
      payload := .json (.message "No documents found to generate Excel file.") }
  else
    let worksheet : Worksheet := { name := "Documents", columns := [], rows := [] }
    let worksheet := worksheet.setColumns excelColumns
    let worksheet := documents.foldl (fun ws doc => ws.addRow (excelRowObject doc)) worksheet
    { status := 200,
      headers :=
        [ ("Content-Type", "application/vnd.openxmlformats-officedocument.spreadsheetml.sheet"),
          ("Content-Disposition", "attachment; filename=Documents.xlsx") ],
      payload := .workbook { worksheets := [worksheet] } }

/-- The request methods the router registers. -/
inductive Method where
  | GET : Method
  | POST : Method
  | PUT : Method
deriving DecidableEq, Repr

/-- A segment of a route path: a literal text or a named parameter `:name`. -/
inductive Segment where
  | lit (text : String) : Segment
  | param (name : String) : Segment
deriving DecidableEq, Repr

/-- Matching of a request path, given by its segments, against a route path, as
a router with the default options does it: the same number of segments, one
empty segment more for a trailing slash allowed; a literal segment equal to the
text, letter case ignored; a parameter bound to any non-empty segment. The
result is the list of the parameter values. -/
def matchPath : List Segment → List Str → Option (List Str)
  | [], [] => some []
  | [], [[]] => some []
  | .lit text :: pattern, seg :: segs =>
    if seg.map Char.toLower = text.toList.map Char.toLower then matchPath pattern segs
    else none
  | .param _ :: pattern, seg :: segs =>
    if seg = [] then none
    else
      match matchPath pattern segs with
      | some params => some (seg :: params)
      | none => none
  | _, _ => none

/-- A request to the router: method, path segments, clock reading, and the
parsed JSON body as the two writing handlers read it. -/
structure HttpRequest where
  method : Method
  path : List Str
  now : Nat
  postBody : PostBody
  putBody : PutBody
deriving DecidableEq, Repr

/-- The handlers of the router, in the order of their registration. -/
inductive Handler where
  | createDocument : Handler
  | listDocuments : Handler
  | readDocument : Handler
  | updateDocument : Handler
  | exportDocuments : Handler
deriving DecidableEq, Repr

/-- The route table of `DocumentRoutes.js`, in registration order. -/
def documentRoutes : List (Method × List Segment × Handler) :=
  [ (.POST, [.lit "documents"], .createDocument),
    (.GET, [.lit "documents"], .listDocuments),
    (.GET, [.lit "documents", .param "student_id"], .readDocument),
    (.PUT, [.lit "documents", .param "student_id"], .updateDocument),
    (.GET, [.lit "documents", .lit "excel"], .exportDocuments) ]

/-- The first route of a table, in its order, whose method and path match the
request, with the parameter values. -/
def findRoute (req : HttpRequest) :
    List (Method × List Segment × Handler) → Option (Handler × List Str)
  | [] => none
  | (method, pattern, handler) :: routes =>
    if method = req.method then
      match matchPath pattern req.path with
      | some params => some (handler, params)
      | none => findRoute req routes
    else findRoute req routes

/-- A response of a writing route as a response of the router. -/
def Response.toHttp (r : Response) : HttpResponse :=
  { status := r.status, headers := [], payload := .json r.body }

/-- The handler a route names, run on the request. -/
def runHandler (handler : Handler) (params : List Str) (req : HttpRequest) (w : World) :
    HttpResponse × World :=
  match handler with
  | .createDocument =>
    let r := postDocuments req.postBody req.now w
    (r.1.toHttp, r.2)
  | .listDocuments => (getDocuments w, w)
  | .readDocument => (getDocument (params.headD []) w, w)
  | .updateDocument =>
    let r := putDocument (params.headD []) req.putBody w
    (r.1.toHttp, r.2)
  | .exportDocuments => (getDocumentsExcel w, w)

/-- Dispatch of a request through the document router: the first matching route
handles it; `none` when no route of the router matches. -/
def dispatch (req : HttpRequest) (w : World) : Option (HttpResponse × World) :=
  match findRoute req documentRoutes with
  | some (handler, params) => some (runHandler handler params req w)
  | none => none

/-! ## Roster page (`[ParkingFile]/search/page.js`) -/

/-- A user object of the roster, by the keys the page reads; `is_admin` is
`none` when the object has no such key. -/
structure User where
  _id : JsVal
  username : JsVal
  first_name : JsVal
  last_name : JsVal
  student_id : JsVal
  email : JsVal
  is_admin : Option Bool
deriving DecidableEq, Repr

/-- The state of the page: the four `useState` cells. -/
structure PageState where
  users : List User
  searchId : Str
  filteredUser : Option User
  isSearchPerformed : Bool
deriving DecidableEq, Repr

/-- Embedding of `handleSearch`; `String(v)` is `v.toText`, and `user || null`
is `none` when `find` returns `undefined`. -/
def handleSearch (st : PageState) : PageState :=
  let user := st.users.find? (fun user => user.student_id.toText == st.searchId)
  { st with filteredUser := user, isSearchPerformed := true }

/-- Embedding of `handlePromoteToAdmin`, from the outcome of the request on:
`ok` tells whether `fetch` returned a response with `response.ok`. The result is
the state after the call and the text of the alert. -/
def handlePromoteToAdmin (username : JsVal) (ok : Bool) (st : PageState) :
    PageState × Str :=
  if !ok then
    (st, "Failed to promote user ".toList ++ username.toText ++
      " to admin. Please try again.".toList)
  else
    let users := st.users.map
      (fun user => if user.username = username then { user with is_admin := some true } else user)
    let filteredUser :=
      match st.filteredUser with
      | some filteredUser =>
        if filteredUser.username = username then some { filteredUser with is_admin := some true }
        else some filteredUser
      | none => none
    ({ st with users := users, filteredUser := filteredUser },
      "User ".toList ++ username.toText ++ " has been successfully promoted to admin.".toList)

/-- Embedding of `displayedUsers`. -/
def displayedUsers (st : PageState) : List User :=
  match st.isSearchPerformed, st.filteredUser with
  | true, some filteredUser => [filteredUser]
  | _, _ => st.users

/-- A row of the table body: number, full name, student id, email, the text of
the admin flag. -/
structure UserRow where
  number : Nat
  fullName : Str
  student_id : JsVal
  email : JsVal
  isAdmin : String
deriving DecidableEq, Repr

/-- The body of the table: the row `No users found.`, or one row per displayed
user. -/
inductive TableBody where
  | noUsersFound : TableBody
  | rows (rows : List UserRow) : TableBody
deriving DecidableEq, Repr

/-- Embedding of the `tbody` of the page. -/
def tableBody (st : PageState) : TableBody :=
  if (displayedUsers st).length > 0 then
    .rows ((displayedUsers st).enum.map (fun (index, user) =>
      { number := index + 1
        fullName := user.first_name.toText ++ " ".toList ++ user.last_name.toText
        student_id := user.student_id
        email := user.email
        isAdmin := if user.is_admin = some true then "Yes" else "No" }))
  else .noUsersFound

/-! ## Sample values -/

/-- A complete application, with a one-pixel licence image. -/
def sampleApplication : Application :=
  { first_name := .str "Dana".toList
    last_name := .str "Levi".toList
    email := .str "dana@sce.edu".toList
    student_id := .str "123456789".toList
    phone_number := .str "0501234567".toList
    Study_Department := .str "Software".toList
    car_type := .str "Mazda".toList
    car_number := .str "12-345-67".toList
    license_image := .str "data:image/png;base64,iVBORw0KGgo=".toList }

/-- A state that holds one stored application of the student `123456789` and
its image file. -/
def sampleWorld : World :=
  { documents :=
      [{ first_name := .str "Dan".toList
         last_name := .str "Cohen".toList
         email := .str "dan@sce.edu".toList
         student_id := .str "123456789".toList
         phone_number := .str "0521111111".toList
         Study_Department := .str "Civil".toList
         car_type := .str "Kia".toList
         car_number := .str "76-543-21".toList
         licenseImage := .str "license-123456789-3.png".toList }]
    fs :=
      { dirs := ["uploads".toList]
        files := [("uploads/license-123456789-3.png".toList, [137, 80])] }
    schema := requiredSchema }

/-- A complete body of a full-record update. -/
def samplePutBody : PutBody :=
  { first_name := .str "Dana".toList
    last_name := .str "Levi".toList
    email := .str "dana@sce.edu".toList
    student_id := .undefined
    phone_number := .str "0501234567".toList
    Study_Department := .str "Software".toList
    car_type := .str "Mazda".toList
    car_number := .str "12-345-67".toList
    license_image := .str "data:image/png;base64,iVBORw0KGgo=".toList
    licenseImage := .undefined }

/-- The complete body of a full-record update, carrying `student_id: ""` as
well. -/
def emptyIdPutBody : PutBody :=
  { samplePutBody with student_id := .str [] }

/-- A roster of three users; the first two share the student id `111`. -/
def sampleUsers : List User :=
  [ { _id := .str "u1".toList, username := .str "dana".toList, first_name := .str "Dana".toList,
      last_name := .str "Levi".toList, student_id := .str "111".toList,
      email := .str "dana@sce.edu".toList, is_admin := some false },
    { _id := .str "u2".toList, username := .str "dan".toList, first_name := .str "Dan".toList,
      last_name := .str "Cohen".toList, student_id := .str "111".toList,
      email := .str "dan@sce.edu".toList, is_admin := none },
    { _id := .str "u3".toList, username := .str "noa".toList, first_name := .str "Noa".toList,
      last_name := .str "Bar".toList, student_id := .str "333".toList,
      email := .str "noa@sce.edu".toList, is_admin := some true } ]

/-- A GET request for the path `/documents/excel`. -/
def excelRequest : HttpRequest :=
  { method := .GET
    path := ["documents".toList, "excel".toList]
    now := 0
    postBody := { parking_application := none }
    putBody := samplePutBody }

/-! ## Properties -/

set_option maxRecDepth 8192

/-! ### Lemmas on the matcher -/

theorem dropLit_eq_some (l s r : Str) : dropLit l s = some r ↔ s = l ++ r := by
  induction l generalizing s with
  | nil => simp [dropLit, eq_comm]
  | cons c cs ih =>
    cases s with
    | nil => simp [dropLit]
    | cons x xs =>
      by_cases h : x = c
      · simp [dropLit, h, ih]
      · simp [dropLit, h]

theorem dropLit_append (l r : Str) : dropLit l (l ++ r) = some r :=
  (dropLit_eq_some l (l ++ r) r).2 rfl

theorem run_lit_end (l s : Str) (caps : List Str) :
    Regex.run (.lit l) s caps (fun rest caps => if rest = [] then some caps else none) =
      if s = l then some caps else none := by
  simp only [Regex.run]
  cases hd : dropLit l s with
  | none =>
    have : s ≠ l := by
      intro h
      rw [h] at hd
      have h2 := dropLit_append l []
      rw [List.append_nil] at h2
      rw [h2] at hd
      exact absurd hd (by simp)
    simp [this]
  | some r =>
    have hr := (dropLit_eq_some _ _ _).1 hd
    by_cases hnil : r = []
    · subst hnil
      simp [hr]
    · have : s ≠ l := by
        intro h
        rw [h] at hr
        have h2 := congrArg List.length hr
        simp at h2
        exact hnil h2
      simp [hnil, this]

theorem greedy_eq_dropWhile {α : Type} (p : Char → Bool) (k : Str → Option α)
    (hk : ∀ c cs, p c = true → k (c :: cs) = none) (s : Str) :
    greedy p k s = k (s.dropWhile p) := by
  induction s with
  | nil => rfl
  | cons c cs ih =>
    by_cases h : p c = true
    · simp only [greedy, h, if_true, List.dropWhile_cons_of_pos, ih, hk c cs h]
      cases k (List.dropWhile p cs) <;> rfl
    · simp only [greedy, h, if_false, Bool.false_eq_true]
      rw [List.dropWhile_cons_of_neg h]

theorem dropWhile_append_of_all (p : Char → Bool) (l r : Str) (h : ∀ c ∈ l, p c = true) :
    (l ++ r).dropWhile p = r.dropWhile p := by
  induction l with
  | nil => rfl
  | cons c cs ih =>
    have hc : p c = true := h c (List.mem_cons_self c cs)
    rw [List.cons_append, List.dropWhile_cons_of_pos hc]
    exact ih (fun x hx => h x (List.mem_cons_of_mem c hx))

theorem isDigit_iff (c : Char) : c.isDigit = true ↔ '0' ≤ c ∧ c ≤ '9' := by
  simp [Char.isDigit, Char.le_def, UInt32.le_def]

theorem emailLocalClass_iff (c : Char) :
    emailLocalClass c = true ↔
      (('a' ≤ c ∧ c ≤ 'z') ∨ ('A' ≤ c ∧ c ≤ 'Z') ∨ ('0' ≤ c ∧ c ≤ '9') ∨
        c ∈ ['.', '_', '%', '+', '-']) := by
  simp [emailLocalClass, Char.isLower, Char.isUpper, Char.isDigit, Char.le_def, UInt32.le_def,
    or_assoc]

theorem sceEmailRegex_test_iff (email : Str) :
    sceEmailRegex.test email = true ↔
      ∃ L : Str, L ≠ [] ∧ (∀ c ∈ L, emailLocalClass c = true) ∧
        email = L ++ "@sce.edu".toList := by
  have hk : ∀ c cs, emailLocalClass c = true →
      (fun rest => Regex.run (.lit "@sce.edu".toList) rest []
        (fun rest caps => if rest = [] then some caps else none)) (c :: cs) = none := by
    intro c cs hc
    have : c ≠ '@' := by
      rintro rfl
      revert hc
      decide
    simp [Regex.run, dropLit, this]
  cases email with
  | nil => simp [Regex.test, Regex.matchAnchored, sceEmailRegex, Regex.run]
  | cons c cs =>
    by_cases hc : emailLocalClass c = true
    · have hrun : sceEmailRegex.run (c :: cs) []
          (fun rest caps => if rest = [] then some caps else none) =
          Regex.run (.lit "@sce.edu".toList) (cs.dropWhile emailLocalClass) []
            (fun rest caps => if rest = [] then some caps else none) := by
        simp only [sceEmailRegex, Regex.run, hc, if_true]
        exact greedy_eq_dropWhile emailLocalClass _ hk cs
      have htest : sceEmailRegex.test (c :: cs) = true ↔
          cs.dropWhile emailLocalClass = "@sce.edu".toList := by
        unfold Regex.test Regex.matchAnchored
        rw [hrun, run_lit_end]
        by_cases h : cs.dropWhile emailLocalClass = "@sce.edu".toList
        · rw [if_pos h]
          exact ⟨fun _ => h, fun _ => rfl⟩
        · rw [if_neg h]
          exact ⟨fun hh => absurd hh (by simp), fun hh => absurd hh h⟩
      rw [htest]
      constructor
      · intro h
        refine ⟨c :: cs.takeWhile emailLocalClass, by simp, ?_, ?_⟩
        · intro x hx
          rcases List.mem_cons.1 hx with rfl | hx
          · exact hc
          · exact (List.mem_takeWhile_imp hx)
        · rw [List.cons_append, ← h, List.takeWhile_append_dropWhile]
      · rintro ⟨L, hL, hall, heq⟩
        cases L with
        | nil => exact absurd rfl hL
        | cons x xs =>
          rw [List.cons_append] at heq
          injection heq with _ hcs
          rw [hcs, dropWhile_append_of_all _ _ _ (fun y hy => hall y (List.mem_cons_of_mem x hy))]
          rfl
    · have : sceEmailRegex.test (c :: cs) = false := by
        simp [Regex.test, Regex.matchAnchored, sceEmailRegex, Regex.run, hc]
      rw [this]
      simp only [Bool.false_eq_true, false_iff]
      rintro ⟨L, hL, hall, heq⟩
      cases L with
      | nil => exact absurd rfl hL
      | cons x xs =>
        rw [List.cons_append] at heq
        injection heq with hx _
        exact hc (hx ▸ hall x (List.mem_cons_self x xs))

theorem not_emailLocalClass_at : emailLocalClass '@' = false := by decide

theorem sceEmailRegex_test_snoc (email : Str) (c : Char)
    (h : sceEmailRegex.test email = true) : sceEmailRegex.test (email ++ [c]) = false := by
  cases hc : sceEmailRegex.test (email ++ [c]) with
  | false => rfl
  | true =>
    exfalso
    obtain ⟨L, _, _, hL⟩ := (sceEmailRegex_test_iff email).1 h
    obtain ⟨L2, _, hall2, hL2⟩ := (sceEmailRegex_test_iff (email ++ [c])).1 hc
    rw [hL, List.append_assoc] at hL2
    rcases List.append_eq_append_iff.1 hL2 with ⟨a, ha, hs⟩ | ⟨a, _, hs⟩
    · cases a with
      | nil =>
        have := congrArg List.length hs
        simp at this
      | cons x xs =>
        have hx : x = '@' := by
          have := congrArg List.head? hs
          simpa using this.symm
        have hmem : '@' ∈ L2 := by
          rw [ha, ← hx]
          simp
        have := hall2 _ hmem
        rw [not_emailLocalClass_at] at this
        exact absurd this (by simp)
    · have := congrArg List.length hs
      simp at this

/-! ### Validators -/

/-- C1: for every string `id`, `isValidId id` is `{isValid: true}`, with no
error field, exactly when `id` holds exactly nine characters `0`-`9`, whatever
other characters stand between them, and it is `{isValid: false, error: "ID
must have 9 digits exactly."}` for every other string. The function is total:
it returns on every string. -/
theorem isValidId_nine_digits (id : Str) :
    (isValidId id = { isValid := true, error := none } ↔
      id.countP (fun c => decide ('0' ≤ c ∧ c ≤ '9')) = 9) ∧
    (id.countP (fun c => decide ('0' ≤ c ∧ c ≤ '9')) ≠ 9 →
      isValidId id = { isValid := false, error := some "ID must have 9 digits exactly." }) := by
  have hlen : (removeAll nonDigit id).length =
      id.countP (fun c => decide ('0' ≤ c ∧ c ≤ '9')) := by
    rw [List.countP_eq_length_filter]
    congr 1
    unfold removeAll
    congr 1
    funext c
    rw [Bool.eq_iff_iff]
    simp only [nonDigit, Bool.not_not, decide_eq_true_eq]
    exact isDigit_iff c
  unfold isValidId
  simp only [hlen]
  by_cases h : id.countP (fun c => decide ('0' ≤ c ∧ c ≤ '9')) = 9
  · simp [h]
  · simp [h]

/-- C2: for every string `email`, `isValidEmail email` is `{isValid: true}`
exactly when the whole string is a non-empty run of letters, digits and the
punctuation `. _ % + -` followed by `@sce.edu`, and is `{isValid: false, error:
"Invalid email format. It must end with @sce.edu"}` otherwise. `a.b_1@sce.edu`
is valid, `a@other.edu` and `a@SCE.EDU` are invalid, and a valid address
followed by any one more character (a newline included) is invalid. -/
theorem isValidEmail_sce_domain (email : Str) :
    (isValidEmail email = { isValid := true, error := none } ↔
      ∃ L : Str, L ≠ [] ∧
        (∀ c ∈ L, ('a' ≤ c ∧ c ≤ 'z') ∨ ('A' ≤ c ∧ c ≤ 'Z') ∨ ('0' ≤ c ∧ c ≤ '9') ∨
          c ∈ ['.', '_', '%', '+', '-']) ∧
        email = L ++ "@sce.edu".toList) ∧
    (isValidEmail email ≠ { isValid := true, error := none } →
      isValidEmail email =
        { isValid := false, error := some "Invalid email format. It must end with @sce.edu" }) ∧
    isValidEmail "a.b_1@sce.edu".toList = { isValid := true, error := none } ∧
    (isValidEmail "a@other.edu".toList).isValid = false ∧
    (isValidEmail "a@SCE.EDU".toList).isValid = false ∧
    (isValidEmail "a@sce.edu\n".toList).isValid = false ∧
    (∀ c : Char, (isValidEmail email).isValid = true →
      (isValidEmail (email ++ [c])).isValid = false) := by
  have hvalid : ∀ e : Str, isValidEmail e = { isValid := true, error := none } ↔
      sceEmailRegex.test e = true := by
    intro e
    unfold isValidEmail
    cases sceEmailRegex.test e <;> simp
  have hvalid2 : ∀ e : Str, (isValidEmail e).isValid = sceEmailRegex.test e := by
    intro e
    unfold isValidEmail
    cases sceEmailRegex.test e <;> simp
  refine ⟨?_, ?_, by decide, by decide, by decide, by decide, ?_⟩
  · rw [hvalid, sceEmailRegex_test_iff]
    constructor
    · rintro ⟨L, hL, hall, heq⟩
      exact ⟨L, hL, fun c hc => (emailLocalClass_iff c).1 (hall c hc), heq⟩
    · rintro ⟨L, hL, hall, heq⟩
      exact ⟨L, hL, fun c hc => (emailLocalClass_iff c).2 (hall c hc), heq⟩
  · intro h
    unfold isValidEmail at h ⊢
    cases ht : sceEmailRegex.test email
    · simp
    · simp [ht] at h
  · intro c h
    rw [hvalid2] at h ⊢
    exact sceEmailRegex_test_snoc email c h

/-! ### Image codec -/

theorem take_length_sub_dropWhile (p : Char → Bool) (c : Char) (cs : Str) :
    (c :: cs).take ((c :: cs).length - (cs.dropWhile p).length) = c :: cs.takeWhile p := by
  have h1 : (cs.takeWhile p).length + (cs.dropWhile p).length = cs.length := by
    rw [← List.length_append, List.takeWhile_append_dropWhile]
  have h2 : (c :: cs).length - (cs.dropWhile p).length = (cs.takeWhile p).length + 1 := by
    simp only [List.length_cons]
    omega
  have h3 := List.take_left (cs.takeWhile p) (cs.dropWhile p)
  rw [List.takeWhile_append_dropWhile] at h3
  rw [h2, List.take_succ_cons, h3]

theorem run_seq (a b : Regex) (s : Str) (caps : List Str)
    (k : Str → List Str → Option (List Str)) :
    Regex.run (.seq a b) s caps k = a.run s caps (fun rest caps1 => b.run rest caps1 k) := rfl

theorem run_lit (l s : Str) (caps : List Str) (k : Str → List Str → Option (List Str)) :
    Regex.run (.lit l) s caps k =
      match dropLit l s with
      | some rest => k rest caps
      | none => none := rfl

theorem run_group_plus (p : Char → Bool) (s : Str) (caps : List Str)
    (k : Str → List Str → Option (List Str))
    (hk : ∀ c cs caps1, p c = true → k (c :: cs) caps1 = none) :
    Regex.run (.group (.plus p)) s caps k =
      match s with
      | c :: cs =>
        if p c then k (cs.dropWhile p) (caps ++ [c :: cs.takeWhile p]) else none
      | [] => none := by
  cases s with
  | nil => simp [Regex.run]
  | cons c cs =>
    by_cases hc : p c = true
    · simp only [Regex.run, hc, if_true]
      rw [greedy_eq_dropWhile p _ (fun x xs hx => hk x xs _ hx) cs]
      simp only [take_length_sub_dropWhile]
    · simp [Regex.run, hc]

theorem takeWhile_append_of_all (p : Char → Bool) (l r : Str) (h : ∀ c ∈ l, p c = true) :
    (l ++ r).takeWhile p = l ++ r.takeWhile p := by
  induction l with
  | nil => rfl
  | cons c cs ih =>
    have hc : p c = true := h c (List.mem_cons_self c cs)
    rw [List.cons_append, List.takeWhile_cons_of_pos hc, List.cons_append]
    congr 1
    exact ih (fun x hx => h x (List.mem_cons_of_mem c hx))

/-- The match of the data URI pattern, computed: after `data:` comes the longest
run of class characters, then `;base64,`, then a payload of characters other
than line terminators up to the end. -/
theorem dataUri_match_eq (s : Str) :
    dataUriRegex.matchAnchored s =
      match dropLit "data:".toList s with
      | some (c :: cs) =>
        if mimeClass c then
          match dropLit ";base64,".toList (cs.dropWhile mimeClass) with
          | some (d :: ds) =>
            if dotClass d then
              if ds.dropWhile dotClass = [] then
                some [s, c :: cs.takeWhile mimeClass, d :: ds]
              else none
            else none
          | _ => none
        else none
      | _ => none := by
  have hk2 : ∀ (c : Char) (cs : Str) (caps1 : List Str), dotClass c = true →
      (fun (rest : Str) (caps : List Str) => if rest = [] then some caps else none)
        (c :: cs) caps1 = none := by
    intro c cs caps1 _
    simp
  have hk1 : ∀ (c : Char) (cs : Str) (caps1 : List Str), mimeClass c = true →
      (fun (rest : Str) (caps : List Str) =>
        Regex.run (.seq (.lit ";base64,".toList) (.group (.plus dotClass))) rest caps
          (fun rest caps => if rest = [] then some caps else none)) (c :: cs) caps1 = none := by
    intro c cs caps1 hc
    have : c ≠ ';' := by
      rintro rfl
      revert hc
      decide
    simp [Regex.run, dropLit, this]
  unfold Regex.matchAnchored dataUriRegex
  rw [run_seq, run_lit]
  cases h1 : dropLit "data:".toList s with
  | none => rfl
  | some r1 =>
    simp only []
    rw [run_seq, run_group_plus mimeClass r1 [] _ hk1]
    cases r1 with
    | nil => rfl
    | cons c cs =>
      simp only []
      by_cases hc : mimeClass c = true
      · simp only [hc, if_true]
        rw [run_seq, run_lit]
        cases h2 : dropLit ";base64,".toList (cs.dropWhile mimeClass) with
        | none => rfl
        | some r2 =>
          simp only []
          rw [run_group_plus dotClass r2 _ _ hk2]
          cases r2 with
          | nil => rfl
          | cons d ds =>
            simp only []
            by_cases hd : dotClass d = true
            · simp only [hd, if_true]
              by_cases he : ds.dropWhile dotClass = []
              · have ht : ds.takeWhile dotClass = ds := by
                  have := List.takeWhile_append_dropWhile dotClass ds
                  rw [he, List.append_nil] at this
                  exact this
                simp [he, ht]
              · simp [he]
            · simp [hd]
      · simp [hc]

theorem not_mimeClass_semicolon : mimeClass ';' = false := by decide

theorem dataUri_match_of_form (M P : Str) (hM : M ≠ []) (hMc : ∀ c ∈ M, mimeClass c = true)
    (hP : P ≠ []) (hPc : ∀ c ∈ P, dotClass c = true) :
    dataUriRegex.matchAnchored ("data:".toList ++ M ++ ";base64,".toList ++ P) =
      some ["data:".toList ++ M ++ ";base64,".toList ++ P, M, P] := by
  rw [dataUri_match_eq]
  cases M with
  | nil => exact absurd rfl hM
  | cons c cs =>
    cases P with
    | nil => exact absurd rfl hP
    | cons d ds =>
      have hc : mimeClass c = true := hMc c (List.mem_cons_self c cs)
      have hcs : ∀ x ∈ cs, mimeClass x = true := fun x hx => hMc x (List.mem_cons_of_mem c hx)
      have hd : dotClass d = true := hPc d (List.mem_cons_self d ds)
      have hds : ∀ x ∈ ds, dotClass x = true := fun x hx => hPc x (List.mem_cons_of_mem d hx)
      have e1 : dropLit "data:".toList ("data:".toList ++ (c :: cs) ++ ";base64,".toList ++ d :: ds)
          = some (c :: (cs ++ (";base64,".toList ++ d :: ds))) := by
        rw [dropLit_eq_some]
        simp
      have e2 : (cs ++ (";base64,".toList ++ d :: ds)).dropWhile mimeClass =
          ";base64,".toList ++ d :: ds := by
        rw [dropWhile_append_of_all _ _ _ hcs]
        exact List.dropWhile_cons_of_neg (by simp [not_mimeClass_semicolon])
      have e3 : (cs ++ (";base64,".toList ++ d :: ds)).takeWhile mimeClass = cs := by
        rw [takeWhile_append_of_all _ _ _ hcs]
        have : (";base64,".toList ++ d :: ds).takeWhile mimeClass = [] :=
          List.takeWhile_cons_of_neg (by simp [not_mimeClass_semicolon])
        rw [this, List.append_nil]
      have e4 : ds.dropWhile dotClass = [] := List.dropWhile_eq_nil_iff.2 hds
      rw [e1]
      simp only [hc, if_true, e2, dropLit_append, hd, e4, e3]

theorem dataUri_form_of_match (s : Str) (m : List Str)
    (h : dataUriRegex.matchAnchored s = some m) :
    ∃ M P : Str, M ≠ [] ∧ (∀ c ∈ M, mimeClass c = true) ∧ P ≠ [] ∧
      (∀ c ∈ P, dotClass c = true) ∧
      s = "data:".toList ++ M ++ ";base64,".toList ++ P ∧ m = [s, M, P] := by
  rw [dataUri_match_eq] at h
  cases h1 : dropLit "data:".toList s with
  | none =>
    rw [h1] at h
    exact absurd h (by simp)
  | some r1 =>
    rw [h1] at h
    cases r1 with
    | nil => exact absurd h (by simp)
    | cons c cs =>
      simp only [] at h
      by_cases hc : mimeClass c = true
      · rw [if_pos hc] at h
        cases h2 : dropLit ";base64,".toList (cs.dropWhile mimeClass) with
        | none =>
          rw [h2] at h
          exact absurd h (by simp)
        | some r2 =>
          rw [h2] at h
          cases r2 with
          | nil => exact absurd h (by simp)
          | cons d ds =>
            simp only [] at h
            by_cases hd : dotClass d = true
            · rw [if_pos hd] at h
              by_cases he : ds.dropWhile dotClass = []
              · rw [if_pos he] at h
                have hm : [s, c :: cs.takeWhile mimeClass, d :: ds] = m := Option.some.inj h
                have hs := (dropLit_eq_some _ _ _).1 h1
                have hr := (dropLit_eq_some _ _ _).1 h2
                refine ⟨c :: cs.takeWhile mimeClass, d :: ds, by simp, ?_, by simp, ?_, ?_,
                  hm.symm⟩
                · intro x hx
                  rcases List.mem_cons.1 hx with rfl | hx
                  · exact hc
                  · exact List.mem_takeWhile_imp hx
                · intro x hx
                  rcases List.mem_cons.1 hx with rfl | hx
                  · exact hd
                  · exact List.dropWhile_eq_nil_iff.1 he x hx
                · rw [hs]
                  have hcs : cs = cs.takeWhile mimeClass ++ (";base64,".toList ++ d :: ds) := by
                    rw [← hr, List.takeWhile_append_dropWhile]
                  have : c :: cs = (c :: cs.takeWhile mimeClass) ++ (";base64,".toList ++ d :: ds) := by
                    rw [List.cons_append, ← hcs]
                  rw [this]
                  simp only [List.append_assoc]
              · rw [if_neg he] at h
                exact absurd h (by simp)
            · rw [if_neg hd] at h
              exact absurd h (by simp)
      · rw [if_neg hc] at h
        exact absurd h (by simp)

/-- The outcome of `saveBase64Image` on a string of the accepted form: what
`fs.mkdirSync` and `fs.writeFileSync` make of the file name. -/
theorem saveBase64Image_of_form (M P : Str) (student_id : JsVal) (now : Nat) (fs : FileSystem)
    (hM : M ≠ []) (hMc : ∀ c ∈ M, mimeClass c = true)
    (hP : P ≠ []) (hPc : ∀ c ∈ P, dotClass c = true) :
    saveBase64Image (.str ("data:".toList ++ M ++ ";base64,".toList ++ P)) student_id now fs =
      match (if !fs.existsSync "uploads".toList then fs.mkdirSync "uploads".toList
          else .ok fs) with
      | .error err => (.error err, fs)
      | .ok fs1 =>
        match fs1.writeFileSync
          (pathJoin ["uploads".toList, "license-".toList ++ student_id.toText ++ "-".toList ++
            Nat.toDigits 10 now ++ ".".toList ++ elementText ((jsSplit '/' M).get? 1)])
          (base64Decode P) with
        | .error err => (.error err, fs1)
        | .ok fs2 =>
          (.ok ("license-".toList ++ student_id.toText ++ "-".toList ++ Nat.toDigits 10 now ++
            ".".toList ++ elementText ((jsSplit '/' M).get? 1)), fs2) := by
  unfold saveBase64Image
  simp only [dataUri_match_of_form M P hM hMc hP hPc]

/-- The outcome of `saveBase64Image` on a string that is not of the accepted
form: the error, and the file system as it was. -/
theorem saveBase64Image_of_not_form (s : Str) (student_id : JsVal) (now : Nat)
    (fs : FileSystem)
    (h : ¬ ∃ M P : Str, M ≠ [] ∧ (∀ c ∈ M, mimeClass c = true) ∧ P ≠ [] ∧
      (∀ c ∈ P, dotClass c = true) ∧ s = "data:".toList ++ M ++ ";base64,".toList ++ P) :
    saveBase64Image (.str s) student_id now fs = (.error (.error "Invalid base64 string"), fs) := by
  simp only [saveBase64Image]
  cases hm : dataUriRegex.matchAnchored s with
  | none => rfl
  | some m =>
    obtain ⟨M, P, h1, h2, h3, h4, h5, _⟩ := dataUri_form_of_match s m hm
    exact absurd ⟨M, P, h1, h2, h3, h4, h5⟩ h

theorem mimeClass_iff (c : Char) :
    mimeClass c = true ↔
      (('A' ≤ c ∧ c ≤ 'Z') ∨ ('a' ≤ c ∧ c ≤ 'z') ∨ c ∈ ['-', '+', '/']) := by
  simp [mimeClass, Char.isLower, Char.isUpper, Char.le_def, UInt32.le_def, or_assoc]

theorem dotClass_iff (c : Char) :
    dotClass c = true ↔ c ∉ ['\n', '\r', '\u2028', '\u2029'] := by
  simp [dotClass, and_assoc]

theorem dataUri_form_iff (s : Str) :
    (∃ M P : Str, M ≠ [] ∧ (∀ c ∈ M, mimeClass c = true) ∧ P ≠ [] ∧
      (∀ c ∈ P, dotClass c = true) ∧ s = "data:".toList ++ M ++ ";base64,".toList ++ P) ↔
    (∃ M P : Str, M ≠ [] ∧
      (∀ c ∈ M, ('A' ≤ c ∧ c ≤ 'Z') ∨ ('a' ≤ c ∧ c ≤ 'z') ∨ c ∈ ['-', '+', '/']) ∧
      P ≠ [] ∧ (∀ c ∈ P, c ∉ ['\n', '\r', '\u2028', '\u2029']) ∧
      s = "data:".toList ++ M ++ ";base64,".toList ++ P) := by
  constructor
  · rintro ⟨M, P, h1, h2, h3, h4, h5⟩
    exact ⟨M, P, h1, fun c hc => (mimeClass_iff c).1 (h2 c hc), h3,
      fun c hc => (dotClass_iff c).1 (h4 c hc), h5⟩
  · rintro ⟨M, P, h1, h2, h3, h4, h5⟩
    exact ⟨M, P, h1, fun c hc => (mimeClass_iff c).2 (h2 c hc), h3,
      fun c hc => (dotClass_iff c).2 (h4 c hc), h5⟩

theorem jsSplit_ne_nil (sep : Char) (l : Str) : jsSplit sep l ≠ [] := by
  induction l with
  | nil => simp [jsSplit]
  | cons c cs ih =>
    by_cases h : c = sep
    · simp [jsSplit, h]
    · simp only [jsSplit, h, if_false]
      cases jsSplit sep cs <;> simp

theorem jsSplit_of_not_mem (sep : Char) (l : Str) (h : sep ∉ l) : jsSplit sep l = [l] := by
  induction l with
  | nil => rfl
  | cons c cs ih =>
    have hc : c ≠ sep := fun e => h (e ▸ List.mem_cons_self c cs)
    have hcs : sep ∉ cs := fun e => h (List.mem_cons_of_mem c e)
    simp [jsSplit, hc, ih hcs]

theorem jsSplit_append_sep (sep : Char) (a b : Str) (h : sep ∉ a) :
    jsSplit sep (a ++ sep :: b) = a :: jsSplit sep b := by
  induction a with
  | nil => simp [jsSplit]
  | cons c cs ih =>
    have hc : c ≠ sep := fun e => h (e ▸ List.mem_cons_self c cs)
    have hcs : sep ∉ cs := fun e => h (List.mem_cons_of_mem c e)
    simp [jsSplit, hc, ih hcs]

/-- The second piece of a text split at `/`: the text between its first `/` and
its next `/`, or its end. -/
theorem jsSplit_second (A B R : Str) (hA : '/' ∉ A) (hB : '/' ∉ B)
    (hR : R = [] ∨ R.head? = some '/') :
    (jsSplit '/' (A ++ '/' :: B ++ R)).get? 1 = some B := by
  rw [List.append_assoc, List.cons_append, jsSplit_append_sep '/' A _ hA]
  rcases hR with rfl | hR
  · rw [List.append_nil, jsSplit_of_not_mem '/' B hB]
    rfl
  · cases R with
    | nil => simp at hR
    | cons r rs =>
      have : r = '/' := by simpa using hR
      subst this
      rw [jsSplit_append_sep '/' B _ hB]
      rfl

theorem digitChar_ne_slash : ∀ d, d < 10 → Nat.digitChar d ≠ '/' := by
  decide

theorem digitChar_ne_nul : ∀ d, d < 10 → Nat.digitChar d ≠ Char.ofNat 0 := by
  decide

theorem toDigitsCore_not_mem (c : Char) (hc : ∀ d, d < 10 → Nat.digitChar d ≠ c)
    (fuel n : Nat) (ds : List Char) (h : c ∉ ds) :
    c ∉ Nat.toDigitsCore 10 fuel n ds := by
  induction fuel generalizing n ds with
  | zero => simpa [Nat.toDigitsCore] using h
  | succ f ih =>
    have hd : c ∉ Nat.digitChar (n % 10) :: ds := by
      intro hm
      rcases List.mem_cons.1 hm with e | e
      · exact hc _ (Nat.mod_lt n (by decide)) e.symm
      · exact h e
    simp only [Nat.toDigitsCore]
    split
    · exact hd
    · exact ih _ _ hd

theorem toDigits_no_slash (n : Nat) : '/' ∉ Nat.toDigits 10 n :=
  toDigitsCore_not_mem '/' digitChar_ne_slash _ _ _ (by simp)

theorem toDigits_no_nul (n : Nat) : Char.ofNat 0 ∉ Nat.toDigits 10 n :=
  toDigitsCore_not_mem (Char.ofNat 0) digitChar_ne_nul _ _ _ (by simp)

theorem pathJoin_uploads (f : Str) (hf : '/' ∉ f) (h0 : f ≠ []) (h1 : f ≠ ['.'])
    (h2 : f ≠ ['.', '.']) :
    pathJoin ["uploads".toList, f] = "uploads/".toList ++ f := by
  have hfilter : (["uploads".toList, f].filter (fun p => !p.isEmpty)) = ["uploads".toList, f] := by
    cases f with
    | nil => exact absurd rfl h0
    | cons c cs => rfl
  have hjoin : ['/'].intercalate ["uploads".toList, f] = "uploads".toList ++ '/' :: f := by
    simp [List.intercalate]
  have hsplit : jsSplit '/' ("uploads".toList ++ '/' :: f) = ["uploads".toList, f] := by
    rw [jsSplit_append_sep '/' _ _ (by decide), jsSplit_of_not_mem '/' f hf]
  have hnorm : normalizeSegments true [] ["uploads".toList, f] = ["uploads".toList, f] := by
    simp [normalizeSegments, h0, h1, h2]
  have hlast : ("uploads".toList ++ '/' :: f).getLast? ≠ some '/' := by
    intro h
    rw [List.getLast?_append_of_ne_nil _ (by simp)] at h
    cases f with
    | nil => exact absurd rfl h0
    | cons c cs =>
      rw [List.getLast?_cons_cons] at h
      exact hf (List.mem_of_getLast?_eq_some h)
  unfold pathJoin
  rw [hfilter, hjoin]
  unfold pathNormalize
  have hhead : ("uploads".toList ++ '/' :: f).head? ≠ some '/' := by simp
  have hne : "uploads".toList ++ '/' :: f ≠ [] := by simp
  simp only [hsplit, hhead, hlast, hne, if_false, decide_False, Bool.not_false, hnorm, hjoin]
  rfl

/-! ### File system -/

theorem entryError_ne_error (fs : FileSystem) (p : Str) (e : JsError)
    (h : fs.entryError p = some e) : ∀ m, e ≠ .error m := by
  intro m hm
  subst hm
  unfold FileSystem.entryError at h
  split at h
  · exact absurd h (by simp)
  · split at h
    · exact absurd h (by simp)
    · split at h
      · exact absurd h (by simp)
      · split at h
        · exact absurd h (by simp)
        · split at h
          · exact absurd h (by simp)
          · exact absurd h (by simp)

theorem mkdirSync_error (fs : FileSystem) (p : Str) (e : JsError)
    (h : fs.mkdirSync p = .error e) : ∀ m, e ≠ .error m := by
  unfold FileSystem.mkdirSync at h
  cases he : fs.entryError p with
  | some e1 =>
    rw [he] at h
    have : e1 = e := Except.error.inj h
    exact this ▸ entryError_ne_error fs p e1 he
  | none =>
    rw [he] at h
    simp only at h
    split at h
    · intro m hm
      have : JsError.system "EEXIST" = e := Except.error.inj h
      rw [hm] at this
      exact absurd this (by simp)
    · exact absurd h (by simp)

theorem writeFileSync_error (fs : FileSystem) (p : Str) (data : Bytes) (e : JsError)
    (h : fs.writeFileSync p data = .error e) : ∀ m, e ≠ .error m := by
  unfold FileSystem.writeFileSync at h
  cases he : fs.entryError p with
  | some e1 =>
    rw [he] at h
    have : e1 = e := Except.error.inj h
    exact this ▸ entryError_ne_error fs p e1 he
  | none =>
    rw [he] at h
    simp only at h
    split at h
    · intro m hm
      have : JsError.system "EISDIR" = e := Except.error.inj h
      rw [hm] at this
      exact absurd this (by simp)
    · exact absurd h (by simp)

/-- On a string of the accepted form `saveBase64Image` returns a file name, or
fails with an exception of `fs`, which is not an `Error` of its own. -/
theorem saveBase64Image_form_cases (M P : Str) (student_id : JsVal) (now : Nat)
    (fs : FileSystem)
    (hM : M ≠ []) (hMc : ∀ c ∈ M, mimeClass c = true)
    (hP : P ≠ []) (hPc : ∀ c ∈ P, dotClass c = true) :
    (∃ name, (saveBase64Image (.str ("data:".toList ++ M ++ ";base64,".toList ++ P))
        student_id now fs).1 = .ok name) ∨
    (∃ e, (saveBase64Image (.str ("data:".toList ++ M ++ ";base64,".toList ++ P))
        student_id now fs).1 = .error e ∧ ∀ m, e ≠ .error m) := by
  rw [saveBase64Image_of_form M P student_id now fs hM hMc hP hPc]
  cases h1 : (if !fs.existsSync "uploads".toList then fs.mkdirSync "uploads".toList
      else Except.ok fs) with
  | error e =>
    refine Or.inr ⟨e, rfl, ?_⟩
    split at h1
    · exact mkdirSync_error fs _ e h1
    · exact absurd h1 (by simp)
  | ok fs1 =>
    simp only []
    cases h2 : fs1.writeFileSync
        (pathJoin ["uploads".toList, "license-".toList ++ student_id.toText ++ "-".toList ++
          Nat.toDigits 10 now ++ ".".toList ++ elementText ((jsSplit '/' M).get? 1)])
        (base64Decode P) with
    | error e => exact Or.inr ⟨e, rfl, writeFileSync_error fs1 _ _ e h2⟩
    | ok fs2 => exact Or.inl ⟨_, rfl⟩


theorem contains_of_mem {α : Type} [BEq α] [LawfulBEq α] (l : List α) (a : α) (h : a ∈ l) :
    l.contains a = true :=
  List.elem_eq_true_of_mem h

theorem contains_of_not_mem {α : Type} [BEq α] [LawfulBEq α] (l : List α) (a : α)
    (h : a ∉ l) : l.contains a = false := by
  rw [Bool.eq_false_iff]
  intro hc
  exact h (List.mem_of_elem_eq_true hc)

theorem entryError_uploads (fs : FileSystem) : fs.entryError "uploads".toList = none := by
  rfl

theorem utf8Length_uploads : utf8Length "uploads".toList = 7 := by
  decide

theorem entryError_in_uploads (fs : FileSystem) (f : Str) (hslash : '/' ∉ f)
    (hnul : Char.ofNat 0 ∉ f) (hlen : utf8Length f ≤ nameMax)
    (hup : "uploads".toList ∈ fs.dirs) :
    fs.entryError ("uploads/".toList ++ f) = none := by
  have hpath : "uploads/".toList ++ f = "uploads".toList ++ '/' :: f := rfl
  have hsplit : jsSplit '/' ("uploads".toList ++ '/' :: f) = ["uploads".toList, f] := by
    rw [jsSplit_append_sep '/' _ _ (by decide), jsSplit_of_not_mem '/' f hslash]
  have hcontains : ("uploads".toList ++ '/' :: f).contains (Char.ofNat 0) = false := by
    apply contains_of_not_mem
    intro hmem
    rcases List.mem_append.1 hmem with h1 | h1
    · exact absurd h1 (by decide)
    · rcases List.mem_cons.1 h1 with h2 | h2
      · exact absurd h2 (by decide)
      · exact hnul h2
  have hlong : (["uploads".toList, f].any (fun seg => decide (utf8Length seg > nameMax))) =
      false := by
    have h7 : ¬ utf8Length "uploads".toList > nameMax := by
      rw [utf8Length_uploads]
      decide
    have hf : ¬ utf8Length f > nameMax := by omega
    rw [List.any_cons, List.any_cons, List.any_nil, decide_eq_false h7, decide_eq_false hf]
    rfl
  have hparent : parentDir ("uploads".toList ++ '/' :: f) = some "uploads".toList := by
    unfold parentDir
    rw [hsplit]
    rfl
  have hdirs : fs.dirs.contains "uploads".toList = true := contains_of_mem _ _ hup
  have htotal : decide (utf8Length ("uploads".toList ++ '/' :: f) > pathMax) = false := by
    have hsum : utf8Length ("uploads".toList ++ '/' :: f) = 8 + utf8Length f := by
      simp only [utf8Length, List.map_append, List.sum_append, List.map_cons, List.sum_cons]
      have h7 : (List.map Char.utf8Size "uploads".toList).sum = 7 := by decide
      have h1 : Char.utf8Size '/' = 1 := by decide
      rw [h7, h1]
      omega
    have hle : utf8Length f ≤ 255 := hlen
    rw [hsum]
    exact decide_eq_false (by unfold pathMax; omega)
  rw [hpath]
  unfold FileSystem.entryError
  rw [hcontains, htotal, hsplit, hlong, hparent]
  simp only [Bool.false_eq_true, if_false, hdirs, Bool.true_or, if_true, Bool.or_false]

/-- The two file-system steps of `saveBase64Image` succeed when the file name
holds no `/` and no NUL and is not longer than `NAME_MAX`, `uploads` is not a
regular file and no directory stands at the path of the file. -/
theorem ensure_and_write (fs : FileSystem) (f : Str) (data : Bytes) (hslash : '/' ∉ f)
    (hnul : Char.ofNat 0 ∉ f) (hlen : utf8Length f ≤ nameMax)
    (hfile : ∀ e ∈ fs.files, e.1 ≠ "uploads".toList)
    (hdir : "uploads/".toList ++ f ∉ fs.dirs) :
    ∃ fs1 fs2 : FileSystem,
      (if !fs.existsSync "uploads".toList then fs.mkdirSync "uploads".toList
        else Except.ok fs) = .ok fs1 ∧
      fs1.writeFileSync ("uploads/".toList ++ f) data = .ok fs2 ∧
      fs2.readFile ("uploads/".toList ++ f) = some data ∧
      "uploads".toList ∈ fs2.dirs := by
  have hany : fs.files.any (fun e => e.1 == "uploads".toList) = false := by
    rw [Bool.eq_false_iff]
    intro h
    obtain ⟨e, he, heq⟩ := List.any_eq_true.1 h
    exact hfile e he (eq_of_beq heq)
  have hne : "uploads/".toList ++ f ≠ "uploads".toList := by
    intro h
    have := congrArg List.length h
    simp at this
  have hstep1 : ∃ fs1 : FileSystem,
      (if !fs.existsSync "uploads".toList then fs.mkdirSync "uploads".toList
        else Except.ok fs) = .ok fs1 ∧ "uploads".toList ∈ fs1.dirs ∧
      "uploads/".toList ++ f ∉ fs1.dirs := by
    by_cases hu : "uploads".toList ∈ fs.dirs
    · refine ⟨fs, ?_, hu, hdir⟩
      have hex : fs.existsSync "uploads".toList = true := by
        unfold FileSystem.existsSync
        rw [contains_of_mem _ _ hu]
        rfl
      rw [hex]
      rfl
    · have hex : fs.existsSync "uploads".toList = false := by
        unfold FileSystem.existsSync
        rw [hany, contains_of_not_mem _ _ hu]
        rfl
      refine ⟨FileSystem.mk ("uploads".toList :: fs.dirs) fs.files, ?_,
        List.mem_cons_self _ _, ?_⟩
      · rw [hex]
        unfold FileSystem.mkdirSync
        rw [entryError_uploads, hex]
        rfl
      · intro hmem
        rcases List.mem_cons.1 hmem with h1 | h1
        · exact hne h1
        · exact hdir h1
  obtain ⟨fs1, h1, hup, hnd⟩ := hstep1
  have hcont : fs1.dirs.contains ("uploads/".toList ++ f) = false :=
    contains_of_not_mem _ _ hnd
  refine ⟨fs1, FileSystem.mk fs1.dirs (("uploads/".toList ++ f, data) ::
    fs1.files.filter (fun e => !(e.1 == "uploads/".toList ++ f))), h1, ?_, ?_, hup⟩
  · unfold FileSystem.writeFileSync
    rw [entryError_in_uploads fs1 f hslash hnul hlen hup, hcont]
    rfl
  · unfold FileSystem.readFile
    rw [List.find?_cons_of_pos]
    · rfl
    · exact beq_self_eq_true _

/-- On a string of the accepted form, with a file name the file system accepts,
`saveBase64Image` returns the file name and the decoded payload is the content
of the file `uploads/` file name. -/
theorem saveBase64Image_ok (M P name : Str) (student_id : JsVal) (now : Nat)
    (fs : FileSystem)
    (hM : M ≠ []) (hMc : ∀ c ∈ M, mimeClass c = true)
    (hP : P ≠ []) (hPc : ∀ c ∈ P, dotClass c = true)
    (hname : name = "license-".toList ++ student_id.toText ++ "-".toList ++
      Nat.toDigits 10 now ++ ".".toList ++ elementText ((jsSplit '/' M).get? 1))
    (hslash : '/' ∉ name) (hnul : Char.ofNat 0 ∉ name) (hlen : utf8Length name ≤ nameMax)
    (hfile : ∀ e ∈ fs.files, e.1 ≠ "uploads".toList)
    (hdir : "uploads/".toList ++ name ∉ fs.dirs) :
    ∃ fs2 : FileSystem,
      saveBase64Image (.str ("data:".toList ++ M ++ ";base64,".toList ++ P)) student_id now fs =
        (.ok name, fs2) ∧
      fs2.readFile ("uploads/".toList ++ name) = some (base64Decode P) ∧
      "uploads".toList ∈ fs2.dirs := by
  have hpath : pathJoin ["uploads".toList, name] = "uploads/".toList ++ name := by
    apply pathJoin_uploads name hslash
    · rw [hname]
      simp
    · rw [hname]
      simp
    · rw [hname]
      simp
  obtain ⟨fs1, fs2, h1, h2, h3, h4⟩ :=
    ensure_and_write fs name (base64Decode P) hslash hnul hlen hfile hdir
  refine ⟨fs2, ?_, h3, h4⟩
  rw [saveBase64Image_of_form M P student_id now fs hM hMc hP hPc, ← hname, hpath, h1]
  simp only []
  rw [h2]

/-- C3, as stated, fails. The string `data:audio/mp4;base64,AAAA` has the form
`data:` type `/` subtype `;base64,` payload, with type `audio` and subtype `mp4`
non-empty runs of letters, digits, `.`, `+`, `-` and a non-empty payload, and
`saveBase64Image` fails on it with `Invalid base64 string`: the class of the
pattern holds no digit. A payload that holds a line feed is rejected too, and a
MIME text without `/` is accepted. And a failure can leave a directory behind:
on an accepted string with the student id `a/b`, starting without the directory
`uploads`, the call creates `uploads` and then fails in `fs.writeFileSync`. -/
theorem saveBase64Image_rejects_digit_in_mime :
    (∃ T S P : Str, T ≠ [] ∧ S ≠ [] ∧ P ≠ [] ∧
      (∀ c ∈ T ++ S, c.isAlphanum = true ∨ c ∈ ['.', '+', '-']) ∧
      "data:audio/mp4;base64,AAAA".toList =
        "data:".toList ++ T ++ "/".toList ++ S ++ ";base64,".toList ++ P) ∧
    (saveBase64Image (.str "data:audio/mp4;base64,AAAA".toList) (.str "123456789".toList) 0
      World.empty.fs).1 = .error (.error "Invalid base64 string") ∧
    (saveBase64Image (.str "data:image/png;base64,AA\nAA".toList) (.str "123456789".toList) 0
      World.empty.fs).1 = .error (.error "Invalid base64 string") ∧
    (saveBase64Image (.str "data:png;base64,AAAA".toList) (.str "123456789".toList) 0
      World.empty.fs).1 = .ok "license-123456789-0.undefined".toList ∧
    saveBase64Image (.str "data:image/png;base64,AAAA".toList) (.str "a/b".toList) 5
      World.empty.fs =
      (.error (.system "ENOENT"), { dirs := ["uploads".toList], files := [] }) := by
  refine ⟨⟨"audio".toList, "mp4".toList, "AAAA".toList, by decide, by decide, by decide,
    by decide, by decide⟩, ?_, ?_, ?_, ?_⟩
  · rfl
  · rfl
  · rfl
  · rfl

/-- C3, amended: for every string `s` and student id, `saveBase64Image` fails
with `Invalid base64 string` exactly when `s` is not of the form `data:` M
`;base64,` P with M a non-empty run of the letters `A`-`Z`, `a`-`z` and the
characters `-`, `+`, `/` and P a non-empty payload free of line terminators
(LF, CR, U+2028, U+2029); and when it fails with this error the file system is
as it was: no directory created, no file written. -/
theorem saveBase64Image_invalid_iff (s : Str) (student_id : JsVal) (now : Nat)
    (fs : FileSystem) :
    ((saveBase64Image (.str s) student_id now fs).1 = .error (.error "Invalid base64 string") ↔
      ¬ ∃ M P : Str, M ≠ [] ∧
        (∀ c ∈ M, ('A' ≤ c ∧ c ≤ 'Z') ∨ ('a' ≤ c ∧ c ≤ 'z') ∨ c ∈ ['-', '+', '/']) ∧
        P ≠ [] ∧ (∀ c ∈ P, c ∉ ['\n', '\r', '\u2028', '\u2029']) ∧
        s = "data:".toList ++ M ++ ";base64,".toList ++ P) ∧
    ((saveBase64Image (.str s) student_id now fs).1 = .error (.error "Invalid base64 string") →
      (saveBase64Image (.str s) student_id now fs).2 = fs) := by
  rw [← dataUri_form_iff]
  by_cases h : ∃ M P : Str, M ≠ [] ∧ (∀ c ∈ M, mimeClass c = true) ∧ P ≠ [] ∧
      (∀ c ∈ P, dotClass c = true) ∧ s = "data:".toList ++ M ++ ";base64,".toList ++ P
  · obtain ⟨M, P, h1, h2, h3, h4, h5⟩ := h
    have hcases := saveBase64Image_form_cases M P student_id now fs h1 h2 h3 h4
    rw [← h5] at hcases
    have hne : (saveBase64Image (.str s) student_id now fs).1 ≠
        .error (.error "Invalid base64 string") := by
      intro hcontra
      rcases hcases with ⟨name, hn⟩ | ⟨e, he, hnot⟩
      · rw [hn] at hcontra
        exact absurd hcontra (by simp)
      · rw [he] at hcontra
        exact hnot _ (Except.error.inj hcontra)
    refine ⟨⟨fun hcontra => absurd hcontra hne, fun hcontra => ?_⟩,
      fun hcontra => absurd hcontra hne⟩
    exact absurd ⟨M, P, h1, h2, h3, h4, h5⟩ hcontra
  · have herr := saveBase64Image_of_not_form s student_id now fs h
    rw [herr]
    exact ⟨⟨fun _ => h, fun _ => rfl⟩, fun _ => rfl⟩

theorem readFile_empty (p : Str) : World.empty.fs.readFile p = none := rfl

/-- C4, as stated, fails: the data URI `data:a/b/c;base64,AAAA` is accepted, and
the extension of the returned file name is `b`, the text between the first and
the second `/` of the MIME type, not the whole text `b/c` that follows the `/`.
And on an accepted data URI no file name is returned where `fs` refuses the
file: with the student id `a/b` (no directory `uploads/license-a`), with a NUL
in the student id, with a student id of 256 letters, where `uploads` is a
regular file, and where a directory stands at the path of the file. -/
theorem saveBase64Image_extension_second_piece :
    (saveBase64Image (.str "data:a/b/c;base64,AAAA".toList) (.str "1".toList) 5
      World.empty.fs).1 = .ok "license-1-5.b".toList ∧
    (saveBase64Image (.str "data:a/b/c;base64,AAAA".toList) (.str "1".toList) 5
      World.empty.fs).1 ≠
      .ok ("license-".toList ++ "1".toList ++ "-".toList ++ (Nat.repr 5).toList ++ ".".toList ++
        "b/c".toList) ∧
    (saveBase64Image (.str "data:image/png;base64,AAAA".toList) (.str "a/b".toList) 5
      World.empty.fs).1 = .error (.system "ENOENT") ∧
    (saveBase64Image (.str "data:image/png;base64,AAAA".toList) (.str [Char.ofNat 0]) 5
      World.empty.fs).1 = .error .typeError ∧
    (saveBase64Image (.str "data:image/png;base64,AAAA".toList)
      (.str (List.replicate 256 'a')) 5 World.empty.fs).1 = .error (.system "ENAMETOOLONG") ∧
    (saveBase64Image (.str "data:image/png;base64,AAAA".toList) (.str "1".toList) 5
      { dirs := [], files := [("uploads".toList, [])] }).1 = .error (.system "ENOTDIR") ∧
    (saveBase64Image (.str "data:image/png;base64,AAAA".toList) (.str "1".toList) 5
      { dirs := ["uploads".toList, "uploads/license-1-5.png".toList], files := [] }).1 =
      .error (.system "EISDIR") := by
  have h1 : (saveBase64Image (.str "data:a/b/c;base64,AAAA".toList) (.str "1".toList) 5
      World.empty.fs).1 = .ok "license-1-5.b".toList := rfl
  refine ⟨h1, ?_, rfl, rfl, rfl, rfl, rfl⟩
  rw [h1]
  intro h
  exact absurd (Except.ok.inj h) (by decide)

theorem not_mimeClass_nul : mimeClass (Char.ofNat 0) = false := by decide


/-- C4, amended: for every accepted data URI whose MIME type holds a `/`, every
student id `s` that holds no `/` and no NUL, every clock reading `now` and every
file system in which `uploads` is not a regular file and no directory stands at
the path of the file, the file name `license-` `s` `-` decimal(`now`) `.` ext
being at most `NAME_MAX` bytes long, where ext is the text of the MIME type
between its first `/` and its next `/` (its end when there is no second `/`):
the call returns exactly that file name, and the decoded payload is the content
of the file at the path `uploads/` followed by that file name. For `image/png`
ext is `png`. -/
theorem saveBase64Image_fileName (A B R P s : Str) (now : Nat) (fs : FileSystem)
    (hM : ∀ c ∈ A ++ '/' :: B ++ R,
      ('A' ≤ c ∧ c ≤ 'Z') ∨ ('a' ≤ c ∧ c ≤ 'z') ∨ c ∈ ['-', '+', '/'])
    (hA : '/' ∉ A) (hB : '/' ∉ B) (hR : R = [] ∨ R.head? = some '/')
    (hP : P ≠ []) (hPc : ∀ c ∈ P, c ∉ ['\n', '\r', '\u2028', '\u2029'])
    (hs : '/' ∉ s) (hnul : Char.ofNat 0 ∉ s)
    (hlen : utf8Length ("license-".toList ++ s ++ "-".toList ++ (Nat.repr now).toList ++
      ".".toList ++ B) ≤ 255)
    (hfile : ∀ e ∈ fs.files, e.1 ≠ "uploads".toList)
    (hdir : "uploads/".toList ++ ("license-".toList ++ s ++ "-".toList ++
      (Nat.repr now).toList ++ ".".toList ++ B) ∉ fs.dirs) :
    (saveBase64Image
        (.str ("data:".toList ++ (A ++ '/' :: B ++ R) ++ ";base64,".toList ++ P))
        (.str s) now fs).1 =
      .ok ("license-".toList ++ s ++ "-".toList ++ (Nat.repr now).toList ++ ".".toList ++ B) ∧
    (saveBase64Image
        (.str ("data:".toList ++ (A ++ '/' :: B ++ R) ++ ";base64,".toList ++ P))
        (.str s) now fs).2.readFile
        ("uploads/".toList ++
          ("license-".toList ++ s ++ "-".toList ++ (Nat.repr now).toList ++ ".".toList ++ B)) =
        some (base64Decode P) := by
  have hrepr : (Nat.repr now).toList = Nat.toDigits 10 now := rfl
  rw [hrepr] at hlen hdir ⊢
  have hMc : ∀ c ∈ A ++ '/' :: B ++ R, mimeClass c = true :=
    fun c hc => (mimeClass_iff c).2 (hM c hc)
  have hBnul : Char.ofNat 0 ∉ B := by
    intro hmem
    have := hMc (Char.ofNat 0) (by simp [hmem])
    rw [not_mimeClass_nul] at this
    exact absurd this (by simp)
  have hname : "license-".toList ++ s ++ "-".toList ++ Nat.toDigits 10 now ++ ".".toList ++ B =
      "license-".toList ++ (JsVal.str s).toText ++ "-".toList ++ Nat.toDigits 10 now ++
        ".".toList ++ elementText ((jsSplit '/' (A ++ '/' :: B ++ R)).get? 1) := by
    rw [jsSplit_second A B R hA hB hR]
    rfl
  have hslash : '/' ∉ "license-".toList ++ s ++ "-".toList ++ Nat.toDigits 10 now ++
      ".".toList ++ B := by
    simp only [List.mem_append, not_or]
    exact ⟨⟨⟨⟨⟨by decide, hs⟩, by decide⟩, toDigits_no_slash now⟩, by decide⟩, hB⟩
  have hnul2 : Char.ofNat 0 ∉ "license-".toList ++ s ++ "-".toList ++ Nat.toDigits 10 now ++
      ".".toList ++ B := by
    simp only [List.mem_append, not_or]
    exact ⟨⟨⟨⟨⟨by decide, hnul⟩, by decide⟩, toDigits_no_nul now⟩, by decide⟩, hBnul⟩
  obtain ⟨fs2, h1, h2, _⟩ := saveBase64Image_ok (A ++ '/' :: B ++ R) P _ (.str s) now fs
    (by simp) hMc hP (fun c hc => (dotClass_iff c).2 (hPc c hc)) hname hslash hnul2 hlen
    hfile hdir
  rw [h1]
  exact ⟨rfl, h2⟩

/-- The amended C4 at the MIME type `image/png`, on the empty file system: the
extension is `png`. -/
theorem saveBase64Image_fileName_png :
    (saveBase64Image (.str ("data:".toList ++ ("image".toList ++ '/' :: "png".toList ++ []) ++
        ";base64,".toList ++ "AAAA".toList)) (.str "123456789".toList) 1700000000000
        World.empty.fs).1 =
      .ok ("license-".toList ++ "123456789".toList ++ "-".toList ++
        (Nat.repr 1700000000000).toList ++ ".".toList ++ "png".toList) ∧
    (saveBase64Image (.str ("data:".toList ++ ("image".toList ++ '/' :: "png".toList ++ []) ++
        ";base64,".toList ++ "AAAA".toList)) (.str "123456789".toList) 1700000000000
        World.empty.fs).2.readFile
        ("uploads/".toList ++ ("license-".toList ++ "123456789".toList ++ "-".toList ++
          (Nat.repr 1700000000000).toList ++ ".".toList ++ "png".toList)) =
        some (base64Decode "AAAA".toList) :=
  saveBase64Image_fileName "image".toList "png".toList [] "AAAA".toList "123456789".toList
    1700000000000 World.empty.fs (by decide) (by decide) (by decide) (Or.inl rfl) (by decide)
    (by decide) (by decide) (by decide) (by decide) (by decide) (by decide)


/-! ### Base64 round trip -/

theorem unbase64_base64Char : ∀ n, n < 64 → unbase64 (base64Char n) = some n := by
  decide

theorem base64Char_ne_pad : ∀ n, n < 64 → (base64Char n != '=') = true := by
  decide

theorem dotClass_base64Char : ∀ n, n < 64 → dotClass (base64Char n) = true := by
  decide

theorem base64Decode_cons (n : Nat) (hn : n < 64) (s : Str) :
    (List.takeWhile (fun c => c != '=') (base64Char n :: s)).filterMap unbase64 =
      n :: (List.takeWhile (fun c => c != '=') s).filterMap unbase64 := by
  have h1 : List.takeWhile (fun c => c != '=') (base64Char n :: s) =
      base64Char n :: List.takeWhile (fun c => c != '=') s := by
    rw [List.takeWhile_cons]
    simp only [base64Char_ne_pad n hn, if_true]
  rw [h1, List.filterMap_cons_some (unbase64_base64Char n hn)]

theorem base64Decode_pad (s : Str) :
    (List.takeWhile (fun c => c != '=') ('=' :: s)).filterMap unbase64 = [] := by
  rw [List.takeWhile_cons]
  rfl

theorem sextets_encode (b : Bytes) (hb : ∀ x ∈ b, x < 256) :
    bytesOfSextets (((base64Encode b).takeWhile (fun c => c != '=')).filterMap unbase64) =
      b := by
  induction b using base64Encode.induct with
  | case1 x y z rest ih =>
    have hx : x < 256 := hb x (by simp)
    have hy : y < 256 := hb y (by simp)
    have hz : z < 256 := hb z (by simp)
    have hrest : ∀ w ∈ rest, w < 256 := fun w hw => hb w (by simp [hw])
    have ih := ih hrest
    rw [base64Encode, base64Decode_cons _ (by omega), base64Decode_cons _ (by omega),
      base64Decode_cons _ (by omega), base64Decode_cons _ (by omega), bytesOfSextets, ih]
    congr 1
    · omega
    congr 1
    · omega
    congr 1
    omega
  | case2 x y =>
    have hx : x < 256 := hb x (by simp)
    have hy : y < 256 := hb y (by simp)
    rw [base64Encode, base64Decode_cons _ (by omega), base64Decode_cons _ (by omega),
      base64Decode_cons _ (by omega), base64Decode_pad, bytesOfSextets]
    congr 1
    · omega
    congr 1
    omega
  | case3 x =>
    have hx : x < 256 := hb x (by simp)
    rw [base64Encode, base64Decode_cons _ (by omega), base64Decode_cons _ (by omega),
      base64Decode_pad, bytesOfSextets]
    congr 1
    omega
  | case4 => rfl

theorem lowByte_base64Char : ∀ n, n < 64 →
    (base64Char n).toNat < 65536 ∧ Char.ofNat ((base64Char n).toNat % 256) = base64Char n := by
  decide

theorem lowByte_stable (s : Str)
    (h : ∀ c ∈ s, c.toNat < 65536 ∧ Char.ofNat (c.toNat % 256) = c) :
    (utf16Units s).map (fun u => Char.ofNat (u % 256)) = s := by
  induction s with
  | nil => rfl
  | cons c cs ih =>
    obtain ⟨h1, h2⟩ := h c (List.mem_cons_self c cs)
    have ih := ih (fun x hx => h x (List.mem_cons_of_mem c hx))
    unfold utf16Units at ih ⊢
    rw [List.flatMap_cons, if_pos h1, List.map_append, ih]
    simp only [List.map_cons, List.map_nil, h2, List.singleton_append]

theorem mem_base64Encode (b : Bytes) (hb : ∀ x ∈ b, x < 256) :
    ∀ c ∈ base64Encode b, (∃ n, n < 64 ∧ c = base64Char n) ∨ c = '=' := by
  induction b using base64Encode.induct with
  | case1 x y z rest ih =>
    have hx : x < 256 := hb x (by simp)
    have hy : y < 256 := hb y (by simp)
    have hz : z < 256 := hb z (by simp)
    have hrest : ∀ w ∈ rest, w < 256 := fun w hw => hb w (by simp [hw])
    intro c hc
    rw [base64Encode] at hc
    simp only [List.mem_cons] at hc
    rcases hc with rfl | rfl | rfl | rfl | hc
    · exact Or.inl ⟨_, by omega, rfl⟩
    · exact Or.inl ⟨_, by omega, rfl⟩
    · exact Or.inl ⟨_, by omega, rfl⟩
    · exact Or.inl ⟨_, by omega, rfl⟩
    · exact ih hrest c hc
  | case2 x y =>
    have hx : x < 256 := hb x (by simp)
    have hy : y < 256 := hb y (by simp)
    intro c hc
    rw [base64Encode] at hc
    simp only [List.mem_cons, List.not_mem_nil, or_false] at hc
    rcases hc with rfl | rfl | rfl | rfl
    · exact Or.inl ⟨_, by omega, rfl⟩
    · exact Or.inl ⟨_, by omega, rfl⟩
    · exact Or.inl ⟨_, by omega, rfl⟩
    · exact Or.inr rfl
  | case3 x =>
    have hx : x < 256 := hb x (by simp)
    intro c hc
    rw [base64Encode] at hc
    simp only [List.mem_cons, List.not_mem_nil, or_false] at hc
    rcases hc with rfl | rfl | rfl | rfl
    · exact Or.inl ⟨_, by omega, rfl⟩
    · exact Or.inl ⟨_, by omega, rfl⟩
    · exact Or.inr rfl
    · exact Or.inr rfl
  | case4 =>
    intro c hc
    simp [base64Encode] at hc

theorem base64Decode_encode (b : Bytes) (hb : ∀ x ∈ b, x < 256) :
    base64Decode (base64Encode b) = b := by
  have hstable : ∀ c ∈ base64Encode b,
      c.toNat < 65536 ∧ Char.ofNat (c.toNat % 256) = c := by
    intro c hc
    rcases mem_base64Encode b hb c hc with ⟨n, hn, rfl⟩ | rfl
    · exact lowByte_base64Char n hn
    · decide
  unfold base64Decode
  rw [lowByte_stable _ hstable]
  exact sextets_encode b hb

theorem base64Encode_ne_nil (b : Bytes) (hb : b ≠ []) : base64Encode b ≠ [] := by
  match b with
  | [] => exact absurd rfl hb
  | [_] => simp [base64Encode]
  | [_, _] => simp [base64Encode]
  | _ :: _ :: _ :: _ => simp [base64Encode]

theorem dotClass_base64Encode (b : Bytes) (hb : ∀ x ∈ b, x < 256) :
    ∀ c ∈ base64Encode b, dotClass c = true := by
  intro c hc
  rcases mem_base64Encode b hb c hc with ⟨n, hn, rfl⟩ | rfl
  · exact dotClass_base64Char n hn
  · decide


/-- C5, as stated, fails: for the two bytes `72, 105` and the student id `a/b`,
on the empty file system, `saveBase64Image` on `data:image/png;base64,` followed
by the encoding of the bytes does not succeed: it creates `uploads` and fails in
`fs.writeFileSync`, the directory `uploads/license-a` being absent, and no file
is written. It does not succeed either with a NUL in the student id, with a
student id of 256 letters, where `uploads` is a regular file, or where a
directory stands at the path of the file. -/
theorem saveBase64Image_roundtrip_fails_on_slash :
    saveBase64Image (.str ("data:image/png;base64,".toList ++ base64Encode [72, 105]))
      (.str "a/b".toList) 5 World.empty.fs =
      (.error (.system "ENOENT"), { dirs := ["uploads".toList], files := [] }) ∧
    (saveBase64Image (.str ("data:image/png;base64,".toList ++ base64Encode [72, 105]))
      (.str [Char.ofNat 0]) 5 World.empty.fs).1 = .error .typeError ∧
    (saveBase64Image (.str ("data:image/png;base64,".toList ++ base64Encode [72, 105]))
      (.str (List.replicate 256 'a')) 5 World.empty.fs).1 = .error (.system "ENAMETOOLONG") ∧
    (saveBase64Image (.str ("data:image/png;base64,".toList ++ base64Encode [72, 105]))
      (.str "1".toList) 5 { dirs := [], files := [("uploads".toList, [])] }).1 =
      .error (.system "ENOTDIR") ∧
    (saveBase64Image (.str ("data:image/png;base64,".toList ++ base64Encode [72, 105]))
      (.str "1".toList) 5
      { dirs := ["uploads".toList, "uploads/license-1-5.png".toList], files := [] }).1 =
      .error (.system "EISDIR") := by
  refine ⟨rfl, rfl, rfl, rfl, rfl⟩

/-- C5, amended: round trip. For every non-empty sequence `b` of bytes, every
student id that holds no `/` and no NUL, every clock reading, and every file
system in which `uploads` is not a regular file and no directory stands at the
path of the file, the file name being at most `NAME_MAX` bytes long,
`saveBase64Image` on `data:image/png;base64,` followed by the standard base64
encoding of `b` succeeds, returns a file name with the extension `png`, and the
content of the file it writes, `uploads/` file name, is exactly `b`. -/
theorem saveBase64Image_roundtrip (b : Bytes) (student_id : JsVal) (now : Nat)
    (fs : FileSystem) (hne : b ≠ []) (hb : ∀ x ∈ b, x < 256)
    (hs : '/' ∉ student_id.toText) (hnul : Char.ofNat 0 ∉ student_id.toText)
    (hlen : utf8Length ("license-".toList ++ student_id.toText ++ "-".toList ++
      (Nat.repr now).toList ++ ".png".toList) ≤ 255)
    (hfile : ∀ e ∈ fs.files, e.1 ≠ "uploads".toList)
    (hdir : "uploads/".toList ++ ("license-".toList ++ student_id.toText ++ "-".toList ++
      (Nat.repr now).toList ++ ".png".toList) ∉ fs.dirs) :
    (saveBase64Image (.str ("data:image/png;base64,".toList ++ base64Encode b))
        student_id now fs).1 =
      .ok ("license-".toList ++ student_id.toText ++ "-".toList ++ (Nat.repr now).toList ++
        ".png".toList) ∧
    (saveBase64Image (.str ("data:image/png;base64,".toList ++ base64Encode b))
        student_id now fs).2.readFile
      ("uploads/".toList ++ ("license-".toList ++ student_id.toText ++ "-".toList ++
        (Nat.repr now).toList ++ ".png".toList)) = some b := by
  have hrepr : (Nat.repr now).toList = Nat.toDigits 10 now := rfl
  rw [hrepr] at hlen hdir ⊢
  have huri : "data:".toList ++ "image/png".toList ++ ";base64,".toList ++ base64Encode b =
      "data:image/png;base64,".toList ++ base64Encode b := rfl
  have hname : "license-".toList ++ student_id.toText ++ "-".toList ++ Nat.toDigits 10 now ++
      ".png".toList = "license-".toList ++ student_id.toText ++ "-".toList ++
      Nat.toDigits 10 now ++ ".".toList ++
      elementText ((jsSplit '/' "image/png".toList).get? 1) := by
    have hext : elementText ((jsSplit '/' "image/png".toList).get? 1) = "png".toList := by
      decide
    rw [hext]
    simp
  have hslash : '/' ∉ "license-".toList ++ student_id.toText ++ "-".toList ++
      Nat.toDigits 10 now ++ ".png".toList := by
    simp only [List.mem_append, not_or]
    exact ⟨⟨⟨⟨by decide, hs⟩, by decide⟩, toDigits_no_slash now⟩, by decide⟩
  have hnul2 : Char.ofNat 0 ∉ "license-".toList ++ student_id.toText ++ "-".toList ++
      Nat.toDigits 10 now ++ ".png".toList := by
    simp only [List.mem_append, not_or]
    exact ⟨⟨⟨⟨by decide, hnul⟩, by decide⟩, toDigits_no_nul now⟩, by decide⟩
  obtain ⟨fs2, h1, h2, _⟩ := saveBase64Image_ok "image/png".toList (base64Encode b) _
    student_id now fs (by decide) (by decide) (base64Encode_ne_nil b hne)
    (dotClass_base64Encode b hb) hname hslash hnul2 hlen hfile hdir
  rw [huri] at h1
  rw [h1]
  refine ⟨rfl, ?_⟩
  rw [h2, base64Decode_encode b hb]

/-- The round trip of the amended C5 at the two bytes `72, 105`, on the empty
file system. -/
theorem saveBase64Image_roundtrip_hi :
    (saveBase64Image (.str ("data:image/png;base64,".toList ++ base64Encode [72, 105]))
        (.str "123456789".toList) 1700000000000 World.empty.fs).1 =
      .ok ("license-".toList ++ (JsVal.str "123456789".toList).toText ++ "-".toList ++
        (Nat.repr 1700000000000).toList ++ ".png".toList) ∧
    (saveBase64Image (.str ("data:image/png;base64,".toList ++ base64Encode [72, 105]))
        (.str "123456789".toList) 1700000000000 World.empty.fs).2.readFile
      ("uploads/".toList ++ ("license-".toList ++
        (JsVal.str "123456789".toList).toText ++ "-".toList ++
        (Nat.repr 1700000000000).toList ++ ".png".toList)) = some [72, 105] :=
  saveBase64Image_roundtrip [72, 105] (.str "123456789".toList) 1700000000000 World.empty.fs
    (by decide) (by decide) (by decide) (by decide) (by decide) (by decide) (by decide)


/-! ### Document routes -/

theorem truthy_eq_false_iff (v : JsVal) :
    v.truthy = false ↔ v = .undefined ∨ v = .null ∨ v = .str [] := by
  cases v with
  | undefined => simp [JsVal.truthy]
  | null => simp [JsVal.truthy]
  | str s => cases s <;> simp [JsVal.truthy]

theorem truthy_iff (v : JsVal) : v.truthy = true ↔ ∃ s, v = .str s ∧ s ≠ [] := by
  cases v with
  | undefined => simp [JsVal.truthy]
  | null => simp [JsVal.truthy]
  | str s => cases s <;> simp [JsVal.truthy]

/-- The required-field check of `POST /documents` fails exactly when one of the
nine fields is absent, `null` or empty. -/
theorem post_check_iff (pa : Application) :
    (!pa.first_name.truthy || !pa.last_name.truthy || !pa.email.truthy ||
      !pa.student_id.truthy || !pa.phone_number.truthy || !pa.Study_Department.truthy ||
      !pa.car_type.truthy || !pa.car_number.truthy || !pa.license_image.truthy) = true ↔
    ∃ v ∈ [pa.first_name, pa.last_name, pa.email, pa.student_id, pa.phone_number,
      pa.Study_Department, pa.car_type, pa.car_number, pa.license_image],
      v = .undefined ∨ v = .null ∨ v = .str [] := by
  simp only [List.mem_cons, List.not_mem_nil, or_false, exists_eq_or_imp, exists_eq_left,
    ← truthy_eq_false_iff, Bool.or_eq_true, Bool.not_eq_true', or_assoc]

/-- The handler of `POST /documents` when its required-field check fails. -/
theorem postDocuments_of_check (pa : Application) (now : Nat) (w : World)
    (h : (!pa.first_name.truthy || !pa.last_name.truthy || !pa.email.truthy ||
      !pa.student_id.truthy || !pa.phone_number.truthy || !pa.Study_Department.truthy ||
      !pa.car_type.truthy || !pa.car_number.truthy || !pa.license_image.truthy) = true) :
    postDocuments { parking_application := some pa } now w =
      ({ status := 400, body := .message "All fields are required." }, w) := by
  simp only [postDocuments]
  rw [if_pos h]

/-- C6: for every request body whose `parking_application` lacks one of the
nine required fields, or holds `null` or the empty string for it, and for every
prior state of the document store and of the file system, the handler of `POST
/documents` answers 400 with the message `All fields are required.` and leaves
the store and the file system exactly as they were. -/
theorem postDocuments_missing_field (pa : Application) (now : Nat) (w : World)
    (h : ∃ v ∈ [pa.first_name, pa.last_name, pa.email, pa.student_id, pa.phone_number,
      pa.Study_Department, pa.car_type, pa.car_number, pa.license_image],
      v = .undefined ∨ v = .null ∨ v = .str []) :
    postDocuments { parking_application := some pa } now w =
      ({ status := 400, body := .message "All fields are required." }, w) := by
  exact postDocuments_of_check pa now w ((post_check_iff pa).2 h)

/-- C6 at the sample application with its licence image set to `null`, sent to
a state that already holds a document and a file. -/
theorem postDocuments_missing_field_null_image :
    postDocuments
        { parking_application := some { sampleApplication with license_image := .null } } 7
        sampleWorld =
      ({ status := 400, body := .message "All fields are required." }, sampleWorld) :=
  postDocuments_missing_field { sampleApplication with license_image := .null } 7 sampleWorld
    (by decide)

theorem saveBase64Image_ok_truthy (v student_id : JsVal) (now : Nat) (fs : FileSystem)
    (fileName : Str) (h : (saveBase64Image v student_id now fs).1 = .ok fileName) :
    v.truthy = true := by
  cases v with
  | undefined => exact absurd h (by simp [saveBase64Image])
  | null => exact absurd h (by simp [saveBase64Image])
  | str s =>
    cases s with
    | nil =>
      have : (saveBase64Image (.str []) student_id now fs).1 =
          .error (.error "Invalid base64 string") := rfl
      rw [this] at h
      exact absurd h (by simp)
    | cons c cs => rfl


/-- A returned file name starts with `license-`, and the text it was computed
from starts with `data:`. -/
theorem saveBase64Image_ok_name (text : Str) (student_id : JsVal) (now : Nat)
    (fs : FileSystem) (fileName : Str)
    (h : (saveBase64Image (.str text) student_id now fs).1 = .ok fileName) :
    (∃ rest, fileName = "license-".toList ++ rest) ∧ ∃ rest, text = "data:".toList ++ rest := by
  by_cases hf : ∃ M P : Str, M ≠ [] ∧ (∀ c ∈ M, mimeClass c = true) ∧ P ≠ [] ∧
      (∀ c ∈ P, dotClass c = true) ∧ text = "data:".toList ++ M ++ ";base64,".toList ++ P
  · obtain ⟨M, P, h1, h2, h3, h4, h5⟩ := hf
    have hok := saveBase64Image_of_form M P student_id now fs h1 h2 h3 h4
    rw [← h5] at hok
    rw [hok] at h
    refine ⟨⟨student_id.toText ++ "-".toList ++ Nat.toDigits 10 now ++ ".".toList ++
      elementText ((jsSplit '/' M).get? 1), ?_⟩, ⟨M ++ ";base64,".toList ++ P, ?_⟩⟩
    · split at h
      · exact absurd h (by simp)
      · split at h
        · exact absurd h (by simp)
        · rw [← Except.ok.inj h]
          simp only [List.append_assoc]
    · rw [h5]
      simp only [List.append_assoc]
  · rw [saveBase64Image_of_not_form text student_id now fs hf] at h
    exact absurd h (by simp)

/-- A document whose nine attributes are non-empty passes the validators of
every schema. -/
theorem validate_of_truthy (schema : DocumentSchema) (doc : Document)
    (h1 : doc.first_name.truthy = true) (h2 : doc.last_name.truthy = true)
    (h3 : doc.email.truthy = true) (h4 : doc.student_id.truthy = true)
    (h5 : doc.phone_number.truthy = true) (h6 : doc.Study_Department.truthy = true)
    (h7 : doc.car_type.truthy = true) (h8 : doc.car_number.truthy = true)
    (h9 : doc.licenseImage.truthy = true) : schema.validate doc = true := by
  simp [DocumentSchema.validate, requiredOk, h1, h2, h3, h4, h5, h6, h7, h8, h9]

/-- The handler of `POST /documents` after its required-field check has passed
and `saveBase64Image` has returned a file name: the document passes the
validators, the answer is 201 and the record is appended. -/
theorem postDocuments_of_saved (pa : Application) (now : Nat) (w : World) (fileName : Str)
    (hcheck : ¬ (!pa.first_name.truthy || !pa.last_name.truthy || !pa.email.truthy ||
      !pa.student_id.truthy || !pa.phone_number.truthy || !pa.Study_Department.truthy ||
      !pa.car_type.truthy || !pa.car_number.truthy || !pa.license_image.truthy) = true)
    (himg : (saveBase64Image pa.license_image pa.student_id now w.fs).1 = .ok fileName) :
    postDocuments { parking_application := some pa } now w =
      ({ status := 201,
         body := .created "Document created successfully"
          { first_name := pa.first_name, last_name := pa.last_name, email := pa.email,
            student_id := pa.student_id, phone_number := pa.phone_number,
            Study_Department := pa.Study_Department, car_type := pa.car_type,
            car_number := pa.car_number, licenseImage := .str fileName } },
       { w with
         documents := w.documents ++
          [{ first_name := pa.first_name, last_name := pa.last_name, email := pa.email,
             student_id := pa.student_id, phone_number := pa.phone_number,
             Study_Department := pa.Study_Department, car_type := pa.car_type,
             car_number := pa.car_number, licenseImage := .str fileName }],
         fs := (saveBase64Image pa.license_image pa.student_id now w.fs).2 }) := by
  have himg2 := saveBase64Image_ok_truthy _ _ _ _ _ himg
  obtain ⟨text, htext, _⟩ := (truthy_iff _).1 himg2
  have hname : ∃ rest, fileName = "license-".toList ++ rest := by
    rw [htext] at himg
    exact (saveBase64Image_ok_name _ _ _ _ _ himg).1
  obtain ⟨rest, hrest⟩ := hname
  have hc := hcheck
  simp only [Bool.or_eq_true, Bool.not_eq_true', not_or, Bool.not_eq_false] at hc
  obtain ⟨⟨⟨⟨⟨⟨⟨⟨h1, h2⟩, h3⟩, h4⟩, h5⟩, h6⟩, h7⟩, h8⟩, _⟩ := hc
  have hvalid : w.schema.validate
      { first_name := pa.first_name, last_name := pa.last_name, email := pa.email,
        student_id := pa.student_id, phone_number := pa.phone_number,
        Study_Department := pa.Study_Department, car_type := pa.car_type,
        car_number := pa.car_number, licenseImage := .str fileName } = true := by
    apply validate_of_truthy _ _ h1 h2 h3 h4 h5 h6 h7 h8
    rw [hrest]
    rfl
  simp only [postDocuments]
  rw [if_neg hcheck]
  cases hs : saveBase64Image pa.license_image pa.student_id now w.fs with
  | mk r fs1 =>
    rw [hs] at himg
    simp only at himg
    subst himg
    simp only [hvalid, Bool.not_true, Bool.false_eq_true, if_false]

/-- C7, as stated, fails: the sample application with the student id `a/b` has
its nine fields non-empty and a licence image the pattern accepts, and the
handler of `POST /documents` answers 400 with `Error creating document`, the
write of the image failing for want of the directory `uploads/license-a`; no
record is stored. -/
theorem postDocuments_fails_on_slash :
    (∀ v ∈ [sampleApplication.first_name, sampleApplication.last_name,
      sampleApplication.email, JsVal.str "a/b".toList, sampleApplication.phone_number,
      sampleApplication.Study_Department, sampleApplication.car_type,
      sampleApplication.car_number, sampleApplication.license_image],
      v ≠ .undefined ∧ v ≠ .null ∧ v ≠ .str []) ∧
    dataUriRegex.test "data:image/png;base64,iVBORw0KGgo=".toList = true ∧
    postDocuments
        { parking_application := some { sampleApplication with student_id := .str "a/b".toList } }
        7 sampleWorld =
      ({ status := 400, body := .failure "Error creating document" (.system "ENOENT") },
        sampleWorld) := by
  refine ⟨by decide, by decide, by decide⟩

/-- C7, amended: for every request body whose nine required fields are
non-empty and for which `saveBase64Image` returns a file name (the licence image
is an accepted data URI and the image file is written), and for every prior
state, the handler of `POST /documents` answers 201 with the stored record; the
eight text fields of the record are the submitted ones, its image reference is
the file name `saveBase64Image` returned and not the image data; the store
afterwards is the prior store followed by that record, whatever the prior store
holds, a record of the same `student_id` included. -/
theorem postDocuments_created (pa : Application) (now : Nat) (w : World) (fileName : Str)
    (hfields : ∀ v ∈ [pa.first_name, pa.last_name, pa.email, pa.student_id, pa.phone_number,
      pa.Study_Department, pa.car_type, pa.car_number, pa.license_image],
      v ≠ .undefined ∧ v ≠ .null ∧ v ≠ .str [])
    (himg : (saveBase64Image pa.license_image pa.student_id now w.fs).1 = .ok fileName) :
    postDocuments { parking_application := some pa } now w =
      ({ status := 201,
         body := .created "Document created successfully"
          { first_name := pa.first_name, last_name := pa.last_name, email := pa.email,
            student_id := pa.student_id, phone_number := pa.phone_number,
            Study_Department := pa.Study_Department, car_type := pa.car_type,
            car_number := pa.car_number, licenseImage := .str fileName } },
       { w with
         documents := w.documents ++
          [{ first_name := pa.first_name, last_name := pa.last_name, email := pa.email,
             student_id := pa.student_id, phone_number := pa.phone_number,
             Study_Department := pa.Study_Department, car_type := pa.car_type,
             car_number := pa.car_number, licenseImage := .str fileName }],
         fs := (saveBase64Image pa.license_image pa.student_id now w.fs).2 }) ∧
    JsVal.str fileName ≠ pa.license_image := by
  have hcheck : ¬ (!pa.first_name.truthy || !pa.last_name.truthy || !pa.email.truthy ||
      !pa.student_id.truthy || !pa.phone_number.truthy || !pa.Study_Department.truthy ||
      !pa.car_type.truthy || !pa.car_number.truthy || !pa.license_image.truthy) = true := by
    rw [post_check_iff]
    rintro ⟨v, hv, hmiss⟩
    obtain ⟨h1, h2, h3⟩ := hfields v hv
    rcases hmiss with h | h | h
    · exact h1 h
    · exact h2 h
    · exact h3 h
  refine ⟨postDocuments_of_saved pa now w fileName hcheck himg, ?_⟩
  intro heq
  rw [← heq] at himg
  obtain ⟨⟨r1, h1⟩, ⟨r2, h2⟩⟩ := saveBase64Image_ok_name fileName pa.student_id now w.fs
    fileName himg
  rw [h1] at h2
  exact absurd h2 (by simp)

/-- The amended C7 at the sample application, sent to a state that already
holds a record of the same `student_id`: the answer is 201 and the store holds
both records. -/
theorem postDocuments_created_duplicate :
    postDocuments { parking_application := some sampleApplication } 7 sampleWorld =
      ({ status := 201,
         body := .created "Document created successfully"
          { first_name := sampleApplication.first_name,
            last_name := sampleApplication.last_name, email := sampleApplication.email,
            student_id := sampleApplication.student_id,
            phone_number := sampleApplication.phone_number,
            Study_Department := sampleApplication.Study_Department,
            car_type := sampleApplication.car_type, car_number := sampleApplication.car_number,
            licenseImage := .str "license-123456789-7.png".toList } },
       { sampleWorld with
         documents := sampleWorld.documents ++
          [{ first_name := sampleApplication.first_name,
             last_name := sampleApplication.last_name, email := sampleApplication.email,
             student_id := sampleApplication.student_id,
             phone_number := sampleApplication.phone_number,
             Study_Department := sampleApplication.Study_Department,
             car_type := sampleApplication.car_type, car_number := sampleApplication.car_number,
             licenseImage := .str "license-123456789-7.png".toList }],
         fs := (saveBase64Image sampleApplication.license_image sampleApplication.student_id 7
          sampleWorld.fs).2 }) ∧
    JsVal.str "license-123456789-7.png".toList ≠ sampleApplication.license_image :=
  postDocuments_created sampleApplication 7 sampleWorld "license-123456789-7.png".toList
    (by decide) rfl


theorem updateFirst_none (s : Str) (u : Document → Document) (ds : List Document)
    (h : ∀ doc ∈ ds, doc.student_id ≠ .str s) : updateFirst s u ds = (none, ds) := by
  induction ds with
  | nil => rfl
  | cons d rest ih =>
    have hd : d.student_id ≠ .str s := h d (List.mem_cons_self d rest)
    have hrest := ih (fun x hx => h x (List.mem_cons_of_mem d hx))
    simp only [updateFirst, hd, if_false, hrest]

theorem updateFirst_first (s : Str) (u : Document → Document)
    (pre post : List Document) (doc : Document)
    (hpre : ∀ x ∈ pre, x.student_id ≠ .str s) (hdoc : doc.student_id = .str s) :
    updateFirst s u (pre ++ doc :: post) = (some (u doc), pre ++ u doc :: post) := by
  induction pre with
  | nil => simp only [List.nil_append, updateFirst, hdoc, if_true]
  | cons d rest ih =>
    have hd : d.student_id ≠ .str s := hpre d (List.mem_cons_self d rest)
    have hrest := ih (fun x hx => hpre x (List.mem_cons_of_mem d hx))
    rw [List.cons_append]
    simp only [updateFirst, hd, if_false]
    rw [hrest]
    rfl

/-- An update keeps a property of every document that the updating function
keeps. -/
theorem updateFirst_forall (P : Document → Prop) (s : Str) (u : Document → Document)
    (hu : ∀ x, P x → P (u x)) (ds : List Document) (h : ∀ x ∈ ds, P x) :
    ∀ x ∈ (updateFirst s u ds).2, P x := by
  induction ds with
  | nil => exact h
  | cons d rest ih =>
    have hd : P d := h d (List.mem_cons_self d rest)
    have hrest := ih (fun x hx => h x (List.mem_cons_of_mem d hx))
    simp only [updateFirst]
    split
    · intro x hx
      rcases List.mem_cons.1 hx with rfl | hx
      · exact hu d hd
      · exact h x (List.mem_cons_of_mem d hx)
    · intro x hx
      rcases List.mem_cons.1 hx with rfl | hx
      · exact hd
      · exact hrest x hx

/-- The required-field check of `PUT /documents/:student_id` fails exactly when
one of the eight fields it names is absent, `null` or empty. -/
theorem put_check_iff (d : PutBody) :
    (!d.first_name.truthy || !d.last_name.truthy || !d.email.truthy ||
      !d.phone_number.truthy || !d.Study_Department.truthy ||
      !d.car_type.truthy || !d.car_number.truthy || !d.license_image.truthy) = true ↔
    ∃ v ∈ [d.first_name, d.last_name, d.email, d.phone_number, d.Study_Department,
      d.car_type, d.car_number, d.license_image],
      v = .undefined ∨ v = .null ∨ v = .str [] := by
  simp only [List.mem_cons, List.not_mem_nil, or_false, exists_eq_or_imp, exists_eq_left,
    ← truthy_eq_false_iff, Bool.or_eq_true, Bool.not_eq_true', or_assoc]

/-- A non-empty value of the body passes the update validators of its path and
replaces the stored value. -/
theorem updateOk_of_truthy (required : Bool) (v : JsVal) (h : v.truthy = true) :
    updateOk required v = true := by
  cases v with
  | undefined => rfl
  | null => exact absurd h (by decide)
  | str s => simp [updateOk, requiredOk, h]

theorem setPath_of_truthy (stored v : JsVal) (h : v.truthy = true) : setPath stored v = v := by
  cases v with
  | undefined => exact absurd h (by decide)
  | null => rfl
  | str s => rfl

/-- The update validator of a required path rejects exactly a carried `null`
and a carried empty string. -/
theorem updateOk_eq_false_iff (required : Bool) (v : JsVal) :
    updateOk required v = false ↔ required = true ∧ (v = .null ∨ v = .str []) := by
  cases v with
  | undefined => simp [updateOk]
  | null => cases required <;> simp [updateOk, requiredOk, JsVal.truthy]
  | str s => cases required <;> cases s <;> simp [updateOk, requiredOk, JsVal.truthy]

/-- Under a validator that passes, the value a `$set` leaves on a path whose
stored value is non-empty is non-empty. -/
theorem setPath_truthy (stored v : JsVal) (hs : stored.truthy = true)
    (h : updateOk true v = true) : (setPath stored v).truthy = true := by
  cases v with
  | undefined => exact hs
  | null => exact absurd h (by decide)
  | str s => simpa [updateOk, requiredOk, setPath] using h

/-- On a body that passes the required-field check of the handler, the update
validators reject exactly when the schema requires `student_id` or
`licenseImage` and the body carries it as `null` or as the empty string. -/
theorem validateUpdate_eq_false_iff (schema : DocumentSchema) (d : PutBody)
    (hcheck : ¬ (!d.first_name.truthy || !d.last_name.truthy || !d.email.truthy ||
      !d.phone_number.truthy || !d.Study_Department.truthy ||
      !d.car_type.truthy || !d.car_number.truthy || !d.license_image.truthy) = true) :
    schema.validateUpdate d = false ↔
      (schema.student_id = true ∧ (d.student_id = .null ∨ d.student_id = .str [])) ∨
      (schema.licenseImage = true ∧ (d.licenseImage = .null ∨ d.licenseImage = .str [])) := by
  simp only [Bool.or_eq_true, Bool.not_eq_true', not_or, Bool.not_eq_false] at hcheck
  obtain ⟨⟨⟨⟨⟨⟨⟨h1, h2⟩, h3⟩, h5⟩, h6⟩, h7⟩, h8⟩, _⟩ := hcheck
  rw [← updateOk_eq_false_iff, ← updateOk_eq_false_iff]
  simp only [DocumentSchema.validateUpdate, updateOk_of_truthy _ _ h1,
    updateOk_of_truthy _ _ h2, updateOk_of_truthy _ _ h3, updateOk_of_truthy _ _ h5,
    updateOk_of_truthy _ _ h6, updateOk_of_truthy _ _ h7, updateOk_of_truthy _ _ h8,
    Bool.true_and, Bool.and_true, Bool.and_eq_false_iff]


/-- A successful create stores a record all of whose attributes are non-empty:
the create handler keeps every stored application complete. -/
theorem postDocuments_complete (body : PostBody) (now : Nat) (w : World)
    (h : ∀ d ∈ w.documents, d.complete = true) :
    ∀ d ∈ (postDocuments body now w).2.documents, d.complete = true := by
  cases hb : body.parking_application with
  | none =>
    simp only [postDocuments, hb]
    exact h
  | some pa =>
    simp only [postDocuments, hb]
    split
    · exact h
    · rename_i hcheck
      cases hs : saveBase64Image pa.license_image pa.student_id now w.fs with
      | mk r fs1 =>
        cases r with
        | error e => exact h
        | ok fileName =>
          simp only
          split
          · exact h
          · simp only [List.mem_append, List.mem_singleton]
            rintro d (hd | rfl)
            · exact h d hd
            · have hname : (saveBase64Image pa.license_image pa.student_id now w.fs).1 =
                  .ok fileName := by rw [hs]
              have himg := saveBase64Image_ok_truthy _ _ _ _ _ hname
              obtain ⟨text, htext, _⟩ := (truthy_iff _).1 himg
              rw [htext] at hname
              obtain ⟨⟨rest, hrest⟩, _⟩ := saveBase64Image_ok_name _ _ _ _ _ hname
              simp only [Bool.or_eq_true, Bool.not_eq_true', not_or, Bool.not_eq_false]
                at hcheck
              obtain ⟨⟨⟨⟨⟨⟨⟨⟨h1, h2⟩, h3⟩, h4⟩, h5⟩, h6⟩, h7⟩, h8⟩, _⟩ := hcheck
              simp only [Document.complete, nonEmptyField, h1, h2, h3, h4, h5, h6, h7, h8,
                Bool.and_true, Bool.true_and, hrest]
              rfl

/-- The handlers do not write the schema. -/
theorem postDocuments_schema (body : PostBody) (now : Nat) (w : World) :
    (postDocuments body now w).2.schema = w.schema := by
  cases hb : body.parking_application with
  | none => simp only [postDocuments, hb]
  | some pa =>
    simp only [postDocuments, hb]
    split
    · rfl
    · cases hs : saveBase64Image pa.license_image pa.student_id now w.fs with
      | mk r fs1 =>
        cases r with
        | error e => rfl
        | ok fileName =>
          simp only
          split <;> rfl

theorem putDocument_schema (s : Str) (d : PutBody) (w : World) :
    (putDocument s d w).2.schema = w.schema := by
  simp only [putDocument]
  split
  · rfl
  · split <;> rfl

/-- A `$set` that passes the required-field check of the update handler and the
validators of the required paths `student_id` and `licenseImage` leaves a
complete application complete. -/
theorem applySet_complete (d : PutBody) (doc : Document)
    (hcheck : ¬ (!d.first_name.truthy || !d.last_name.truthy || !d.email.truthy ||
      !d.phone_number.truthy || !d.Study_Department.truthy ||
      !d.car_type.truthy || !d.car_number.truthy || !d.license_image.truthy) = true)
    (hid : updateOk true d.student_id = true) (himg : updateOk true d.licenseImage = true)
    (hdoc : doc.complete = true) : (applySet d doc).complete = true := by
  simp only [Bool.or_eq_true, Bool.not_eq_true', not_or, Bool.not_eq_false] at hcheck
  obtain ⟨⟨⟨⟨⟨⟨⟨h1, h2⟩, h3⟩, h5⟩, h6⟩, h7⟩, h8⟩, _⟩ := hcheck
  simp only [Document.complete, nonEmptyField, Bool.and_eq_true] at hdoc
  obtain ⟨⟨⟨⟨⟨⟨⟨⟨_, _⟩, _⟩, d4⟩, _⟩, _⟩, _⟩, _⟩, d9⟩ := hdoc
  simp only [Document.complete, nonEmptyField, applySet, setPath_of_truthy _ _ h1,
    setPath_of_truthy _ _ h2, setPath_of_truthy _ _ h3, setPath_of_truthy _ _ h5,
    setPath_of_truthy _ _ h6, setPath_of_truthy _ _ h7, setPath_of_truthy _ _ h8,
    h1, h2, h3, h5, h6, h7, h8, setPath_truthy _ _ d4 hid, setPath_truthy _ _ d9 himg,
    Bool.and_true]

/-- Under a schema that requires `student_id` and `licenseImage`, the update
handler keeps every stored application complete. -/
theorem putDocument_complete (s : Str) (d : PutBody) (w : World)
    (hid : w.schema.student_id = true) (himg : w.schema.licenseImage = true)
    (h : ∀ x ∈ w.documents, x.complete = true) :
    ∀ x ∈ (putDocument s d w).2.documents, x.complete = true := by
  simp only [putDocument]
  split
  · exact h
  · rename_i hcheck
    by_cases hv : w.schema.validateUpdate d = true
    · have hv2 := hv
      simp only [DocumentSchema.validateUpdate, Bool.and_eq_true, hid, himg] at hv2
      have hall := updateFirst_forall (fun x => x.complete = true) s (applySet d)
        (fun x hx => applySet_complete d x hcheck hv2.1.1.1.1.1.2 hv2.2 hx) w.documents h
      simp only [findOneAndUpdate, hv, Bool.not_true, Bool.false_eq_true, if_false]
      cases hr : updateFirst s (applySet d) w.documents with
      | mk r ds =>
        rw [hr] at hall
        cases r with
        | none => exact h
        | some u => exact hall
    · simp only [findOneAndUpdate, hv, Bool.not_false, if_true]
      exact h

/-- One request keeps the schema, and under a schema that requires `student_id`
and `licenseImage` it keeps every stored application complete. -/
theorem step_complete (w : World) (r : Request)
    (hid : w.schema.student_id = true) (himg : w.schema.licenseImage = true)
    (h : ∀ x ∈ w.documents, x.complete = true) :
    (step w r).schema = w.schema ∧ ∀ x ∈ (step w r).documents, x.complete = true := by
  cases r with
  | post body now => exact ⟨postDocuments_schema body now w, postDocuments_complete body now w h⟩
  | put s d => exact ⟨putDocument_schema s d w, putDocument_complete s d w hid himg h⟩

theorem run_complete_aux (reqs : List Request) : ∀ (w : World),
    w.schema.student_id = true → w.schema.licenseImage = true →
    (∀ x ∈ w.documents, x.complete = true) →
    ∀ x ∈ (run w reqs).documents, x.complete = true := by
  induction reqs with
  | nil => intro w _ _ h; exact h
  | cons r rest ih =>
    intro w hid himg h
    have hs := step_complete w r hid himg h
    have := ih (step w r) (by rw [hs.1]; exact hid) (by rw [hs.1]; exact himg) hs.2
    simpa [run] using this

/-- Where the schema leaves `student_id` optional, the update validators pass a
body that carries `student_id: ""`: the update handler answers 200 and stores an
application with an empty `student_id`. The hypothesis of the invariant on the
schema is needed. -/
theorem putDocument_optional_student_id :
    ((putDocument "123456789".toList { samplePutBody with student_id := .str [] }
      { sampleWorld with schema := { requiredSchema with student_id := false } }).1.status
      = 200) ∧
    ¬ ∀ x ∈ (putDocument "123456789".toList { samplePutBody with student_id := .str [] }
      { sampleWorld with schema := { requiredSchema with student_id := false } }).2.documents,
      x.complete = true := by
  refine ⟨by decide, by decide⟩

/-- C8: store invariant. The schema of the collection (`models/Document.js`) is
a parameter of the state; for every schema that declares `student_id` and
`licenseImage` required, every file system and every store all of whose
applications are complete (the empty store among them), after every finite
sequence of `POST /documents` and `PUT /documents/:student_id` requests with
arbitrary bodies every stored application has a non-empty `first_name`,
`last_name`, `email`, `student_id`, `phone_number`, `Study_Department`,
`car_type`, `car_number` and a non-empty licence image reference. -/
theorem run_keeps_applications_complete (w : World) (reqs : List Request)
    (hid : w.schema.student_id = true) (himg : w.schema.licenseImage = true)
    (h : ∀ x ∈ w.documents, x.complete = true) :
    ∀ x ∈ (run w reqs).documents,
      x.first_name.truthy = true ∧ x.last_name.truthy = true ∧ x.email.truthy = true ∧
      x.student_id.truthy = true ∧ x.phone_number.truthy = true ∧
      x.Study_Department.truthy = true ∧ x.car_type.truthy = true ∧
      x.car_number.truthy = true ∧ x.licenseImage.truthy = true := by
  intro x hx
  have hc := run_complete_aux reqs w hid himg h x hx
  simp only [Document.complete, nonEmptyField, Bool.and_eq_true] at hc
  obtain ⟨⟨⟨⟨⟨⟨⟨⟨h1, h2⟩, h3⟩, h4⟩, h5⟩, h6⟩, h7⟩, h8⟩, h9⟩ := hc
  exact ⟨h1, h2, h3, h4, h5, h6, h7, h8, h9⟩

/-- C8 from the empty store, under the schema that requires every path: after
a create of the sample application and a full-record update of that student
whose body carries `student_id: ""` (the validators reject it), the one stored
application has its nine attributes non-empty. -/
theorem run_keeps_applications_complete_empty_store :
    (run World.empty
        [.post { parking_application := some sampleApplication } 5,
         .put "123456789".toList { samplePutBody with student_id := .str [] }]).documents.length
      = 1 ∧
    ∀ x ∈ (run World.empty
        [.post { parking_application := some sampleApplication } 5,
         .put "123456789".toList { samplePutBody with student_id := .str [] }]).documents,
      x.first_name.truthy = true ∧ x.last_name.truthy = true ∧ x.email.truthy = true ∧
      x.student_id.truthy = true ∧ x.phone_number.truthy = true ∧
      x.Study_Department.truthy = true ∧ x.car_type.truthy = true ∧
      x.car_number.truthy = true ∧ x.licenseImage.truthy = true :=
  ⟨by decide, run_keeps_applications_complete World.empty
    [.post { parking_application := some sampleApplication } 5,
     .put "123456789".toList { samplePutBody with student_id := .str [] }] rfl rfl
    (fun _ hx => absurd hx (List.not_mem_nil _))⟩


/-- C9, as stated, fails: on the sample state, whose schema requires every
path, the body `emptyIdPutBody` (the sample update with `student_id: ""`) has
its eight checked fields non-empty and the route parameter names a stored
record, and the handler answers neither 404 nor 200 but 400 with `Error updating
document`, the update validators (`runValidators: true`) rejecting the empty
`student_id`; the state is unchanged. -/
theorem putDocument_rejected_by_validators :
    (¬ ∃ v ∈ [emptyIdPutBody.first_name, emptyIdPutBody.last_name, emptyIdPutBody.email,
        emptyIdPutBody.phone_number, emptyIdPutBody.Study_Department, emptyIdPutBody.car_type,
        emptyIdPutBody.car_number, emptyIdPutBody.license_image],
        v = .undefined ∨ v = .null ∨ v = .str []) ∧
    (∃ doc ∈ sampleWorld.documents, doc.student_id = .str "123456789".toList) ∧
    putDocument "123456789".toList emptyIdPutBody sampleWorld =
      ({ status := 400, body := .failure "Error updating document" .validation },
        sampleWorld) := by
  refine ⟨by decide, by decide, by decide⟩

/-- C9, amended: for every route parameter `s`, request body `d` and state, the
handler of `PUT /documents/:student_id` answers 400 with `All fields are
required.` when `d` lacks, or holds `null` or the empty string for, one of
`first_name`, `last_name`, `email`, `phone_number`, `Study_Department`,
`car_type`, `car_number`, `license_image`; otherwise 400 with `Error updating
document` when the schema requires `student_id` or `licenseImage` and `d`
carries it as `null` or as the empty string (the update validators reject it);
otherwise 404 with `Document not found` when no stored record has
`student_id = s`; otherwise 200 with the updated record, whose seven checked
text fields are those of `d` and whose `student_id` and `licenseImage` are those
of `d` where `d` carries them and the stored ones where it does not. In the 400
and 404 cases the state is unchanged; in the 200 case the first record with
`student_id = s` is replaced by the updated one and every other record, the
file system and the schema are unchanged. -/
theorem putDocument_responses (s : Str) (d : PutBody) (w : World) :
    ((∃ v ∈ [d.first_name, d.last_name, d.email, d.phone_number, d.Study_Department,
        d.car_type, d.car_number, d.license_image],
        v = .undefined ∨ v = .null ∨ v = .str []) →
      putDocument s d w = ({ status := 400, body := .message "All fields are required." }, w)) ∧
    ((¬ ∃ v ∈ [d.first_name, d.last_name, d.email, d.phone_number, d.Study_Department,
        d.car_type, d.car_number, d.license_image],
        v = .undefined ∨ v = .null ∨ v = .str []) →
      ((w.schema.student_id = true ∧ (d.student_id = .null ∨ d.student_id = .str [])) ∨
        (w.schema.licenseImage = true ∧ (d.licenseImage = .null ∨ d.licenseImage = .str []))) →
      putDocument s d w =
        ({ status := 400, body := .failure "Error updating document" .validation }, w)) ∧
    ((¬ ∃ v ∈ [d.first_name, d.last_name, d.email, d.phone_number, d.Study_Department,
        d.car_type, d.car_number, d.license_image],
        v = .undefined ∨ v = .null ∨ v = .str []) →
      (¬ ((w.schema.student_id = true ∧ (d.student_id = .null ∨ d.student_id = .str [])) ∨
        (w.schema.licenseImage = true ∧
          (d.licenseImage = .null ∨ d.licenseImage = .str [])))) →
      ((∀ doc ∈ w.documents, doc.student_id ≠ .str s) →
        putDocument s d w = ({ status := 404, body := .message "Document not found" }, w)) ∧
      ∀ (pre post : List Document) (doc : Document),
        w.documents = pre ++ doc :: post → (∀ x ∈ pre, x.student_id ≠ .str s) →
        doc.student_id = .str s →
        ∃ u : Document,
          putDocument s d w =
            ({ status := 200, body := .document u },
              { documents := pre ++ u :: post, fs := w.fs, schema := w.schema }) ∧
          u.first_name = d.first_name ∧ u.last_name = d.last_name ∧ u.email = d.email ∧
          u.phone_number = d.phone_number ∧ u.Study_Department = d.Study_Department ∧
          u.car_type = d.car_type ∧ u.car_number = d.car_number ∧
          u.student_id = (if d.student_id = .undefined then doc.student_id else d.student_id) ∧
          u.licenseImage =
            (if d.licenseImage = .undefined then doc.licenseImage else d.licenseImage)) := by
  refine ⟨fun h => ?_, fun h hrej => ?_, fun h hpass => ⟨fun hnone => ?_,
    fun pre post doc hw hpre hdoc => ?_⟩⟩
  · simp only [putDocument]
    rw [if_pos ((put_check_iff d).2 h)]
  · have hcheck := fun hc => h ((put_check_iff d).1 hc)
    have hv := (validateUpdate_eq_false_iff w.schema d hcheck).2 hrej
    simp only [putDocument]
    rw [if_neg hcheck]
    simp only [findOneAndUpdate, hv, Bool.not_false, if_true]
  · have hcheck := fun hc => h ((put_check_iff d).1 hc)
    have hv : w.schema.validateUpdate d = true := by
      cases hb : w.schema.validateUpdate d with
      | true => rfl
      | false => exact absurd ((validateUpdate_eq_false_iff w.schema d hcheck).1 hb) hpass
    simp only [putDocument]
    rw [if_neg hcheck]
    simp only [findOneAndUpdate, hv, Bool.not_true, Bool.false_eq_true, if_false]
    rw [updateFirst_none s _ _ hnone]
  · have hcheck := fun hc => h ((put_check_iff d).1 hc)
    have hv : w.schema.validateUpdate d = true := by
      cases hb : w.schema.validateUpdate d with
      | true => rfl
      | false => exact absurd ((validateUpdate_eq_false_iff w.schema d hcheck).1 hb) hpass
    refine ⟨applySet d doc, ?_, ?_⟩
    · simp only [putDocument]
      rw [if_neg hcheck]
      simp only [findOneAndUpdate, hv, Bool.not_true, Bool.false_eq_true, if_false]
      rw [hw, updateFirst_first s _ pre post doc hpre hdoc]
    · have hc : ¬ (!d.first_name.truthy || !d.last_name.truthy || !d.email.truthy ||
          !d.phone_number.truthy || !d.Study_Department.truthy ||
          !d.car_type.truthy || !d.car_number.truthy || !d.license_image.truthy) = true :=
        hcheck
      simp only [Bool.or_eq_true, Bool.not_eq_true', not_or, Bool.not_eq_false] at hc
      obtain ⟨⟨⟨⟨⟨⟨⟨h1, h2⟩, h3⟩, h5⟩, h6⟩, h7⟩, h8⟩, _⟩ := hc
      refine ⟨setPath_of_truthy _ _ h1, setPath_of_truthy _ _ h2, setPath_of_truthy _ _ h3,
        setPath_of_truthy _ _ h5, setPath_of_truthy _ _ h6, setPath_of_truthy _ _ h7,
        setPath_of_truthy _ _ h8, ?_, ?_⟩
      · simp only [applySet]
        cases d.student_id <;> simp [setPath]
      · simp only [applySet]
        cases d.licenseImage <;> simp [setPath]

/-- The amended C9 on the sample state: the four answers of the update handler;
the record the 200 answer carries holds the fields of the body and keeps the
stored `student_id` and image reference, which the body does not carry. -/
theorem putDocument_responses_sample :
    putDocument "123456789".toList { samplePutBody with email := .null } sampleWorld =
      ({ status := 400, body := .message "All fields are required." }, sampleWorld) ∧
    putDocument "123456789".toList { samplePutBody with licenseImage := .str [] } sampleWorld =
      ({ status := 400, body := .failure "Error updating document" .validation },
        sampleWorld) ∧
    putDocument "987654321".toList samplePutBody sampleWorld =
      ({ status := 404, body := .message "Document not found" }, sampleWorld) ∧
    ∃ u : Document,
      putDocument "123456789".toList samplePutBody sampleWorld =
        ({ status := 200, body := .document u },
          { documents := [] ++ u :: [], fs := sampleWorld.fs, schema := sampleWorld.schema }) ∧
      u.first_name = samplePutBody.first_name ∧ u.last_name = samplePutBody.last_name ∧
      u.email = samplePutBody.email ∧ u.phone_number = samplePutBody.phone_number ∧
      u.Study_Department = samplePutBody.Study_Department ∧
      u.car_type = samplePutBody.car_type ∧ u.car_number = samplePutBody.car_number ∧
      u.student_id = (if samplePutBody.student_id = .undefined
        then JsVal.str "123456789".toList else samplePutBody.student_id) ∧
      u.licenseImage = (if samplePutBody.licenseImage = .undefined
        then JsVal.str "license-123456789-3.png".toList else samplePutBody.licenseImage) :=
  ⟨(putDocument_responses "123456789".toList { samplePutBody with email := .null }
      sampleWorld).1 (by decide),
    (putDocument_responses "123456789".toList { samplePutBody with licenseImage := .str [] }
      sampleWorld).2.1 (by decide) (by decide),
    ((putDocument_responses "987654321".toList samplePutBody sampleWorld).2.2
      (by decide) (by decide)).1 (by decide),
    ((putDocument_responses "123456789".toList samplePutBody sampleWorld).2.2
      (by decide) (by decide)).2 [] [] _ rfl (by decide) rfl⟩


/-! ### Submission form and server check -/

/-- C10: client and server validate the same nine fields. For every application
payload, `handleSignUp` passes its checks and sends the payload exactly when the
required-field check of `POST /documents` passes, that is, when the handler does
not answer `All fields are required.`; and a payload one of whose nine fields is
absent, `null` or empty is not sent. -/
theorem handleSignUp_iff_server_check (pa : Application) (now : Nat) (w : World) :
    (handleSignUp pa = .send { parking_application := some pa } ↔
      (postDocuments { parking_application := some pa } now w).1 ≠
        { status := 400, body := .message "All fields are required." }) ∧
    ((∃ v ∈ [pa.first_name, pa.last_name, pa.email, pa.student_id, pa.phone_number,
        pa.Study_Department, pa.car_type, pa.car_number, pa.license_image],
        v = .undefined ∨ v = .null ∨ v = .str []) →
      ∀ body, handleSignUp pa ≠ .send body) := by
  have hclient : (∃ body, handleSignUp pa = .send body) ↔
      ¬ ∃ v ∈ [pa.first_name, pa.last_name, pa.email, pa.student_id, pa.phone_number,
        pa.Study_Department, pa.car_type, pa.car_number, pa.license_image],
        v = .undefined ∨ v = .null ∨ v = .str [] := by
    rw [← post_check_iff]
    unfold handleSignUp
    cases pa.first_name.truthy <;> cases pa.last_name.truthy <;> cases pa.email.truthy <;>
      cases pa.student_id.truthy <;> cases pa.phone_number.truthy <;>
      cases pa.Study_Department.truthy <;> cases pa.car_type.truthy <;>
      cases pa.car_number.truthy <;> cases pa.license_image.truthy <;> simp
  have hsend : handleSignUp pa = .send { parking_application := some pa } ↔
      ∃ body, handleSignUp pa = .send body := by
    constructor
    · intro h
      exact ⟨_, h⟩
    · rintro ⟨body, h⟩
      unfold handleSignUp at h ⊢
      split at h
      · exact absurd h (by simp)
      · split at h
        · exact absurd h (by simp)
        · rename_i h1 h2
          rw [if_neg h1, if_neg h2]
  have hserver : (postDocuments { parking_application := some pa } now w).1 ≠
        { status := 400, body := .message "All fields are required." } ↔
      ¬ ∃ v ∈ [pa.first_name, pa.last_name, pa.email, pa.student_id, pa.phone_number,
        pa.Study_Department, pa.car_type, pa.car_number, pa.license_image],
        v = .undefined ∨ v = .null ∨ v = .str [] := by
    constructor
    · intro h hmiss
      exact h (by rw [postDocuments_of_check pa now w ((post_check_iff pa).2 hmiss)])
    · intro h
      simp only [postDocuments]
      rw [if_neg (fun hc => h ((post_check_iff pa).1 hc))]
      cases hs : saveBase64Image pa.license_image pa.student_id now w.fs with
      | mk r fs1 =>
        cases r with
        | error e => simp
        | ok fileName =>
          simp only
          split <;> simp
  refine ⟨?_, fun hmiss body hb => ?_⟩
  · rw [hsend, hclient, hserver]
  · exact (hclient.1 ⟨body, hb⟩) hmiss

/-! ### Export -/

theorem addRow_columns (ws : Worksheet) (object : List (String × JsVal)) :
    (ws.addRow object).columns = ws.columns := rfl

theorem foldl_addRow (docs : List Document) (ws : Worksheet) :
    docs.foldl (fun ws doc => ws.addRow (excelRowObject doc)) ws =
      { ws with
        rows := ws.rows ++ docs.map (fun doc =>
          ws.columns.map (fun c => ((excelRowObject doc).lookup c.key).getD .undefined)) } := by
  induction docs generalizing ws with
  | nil => simp
  | cons d rest ih =>
    rw [List.foldl_cons, ih]
    simp [Worksheet.addRow]

theorem excelColumns_row (doc : Document) :
    excelColumns.map (fun c => ((excelRowObject doc).lookup c.key).getD .undefined) =
      [doc.first_name, doc.last_name, doc.email, doc.student_id, doc.phone_number,
        doc.Study_Department, doc.car_type, doc.car_number, doc.licenseImage] := by
  rfl

/-- The worksheet the export builds for a non-empty collection. -/
theorem getDocumentsExcel_of_ne_nil (w : World) (h : w.documents ≠ []) :
    getDocumentsExcel w =
      { status := 200,
        headers :=
          [ ("Content-Type",
              "application/vnd.openxmlformats-officedocument.spreadsheetml.sheet"),
            ("Content-Disposition", "attachment; filename=Documents.xlsx") ],
        payload := .workbook { worksheets :=
          [{ name := "Documents", columns := excelColumns,
             rows := excelColumns.map (fun c => JsVal.str c.header.toList) ::
              w.documents.map (fun doc =>
                [doc.first_name, doc.last_name, doc.email, doc.student_id, doc.phone_number,
                  doc.Study_Department, doc.car_type, doc.car_number, doc.licenseImage]) }] } } := by
  have hlen : ¬ w.documents.length = 0 := fun e => h (List.length_eq_zero.1 e)
  simp only [getDocumentsExcel, hlen, if_false, foldl_addRow]
  simp only [Worksheet.setColumns, excelColumns_row, List.drop_nil, List.singleton_append]

/-- C11: for every list of `N ≥ 1` stored applications the export answers 200
with a workbook of one worksheet whose rows are exactly one header row followed
by `N` data rows; the header row reads First Name, Last Name, Email, Student
ID, Phone Number, Study Department, Car Type, Car Number, License Image, in
this order, and the `i`-th data row holds the nine fields of the `i`-th
application in the order the store returned them. -/
theorem getDocumentsExcel_rows (w : World) (h : 1 ≤ w.documents.length) :
    ∃ ws : Worksheet,
      (getDocumentsExcel w).status = 200 ∧
      (getDocumentsExcel w).payload = .workbook { worksheets := [ws] } ∧
      ws.rows.length = w.documents.length + 1 ∧
      ws.rows[0]? = some
        [.str "First Name".toList, .str "Last Name".toList, .str "Email".toList,
          .str "Student ID".toList, .str "Phone Number".toList,
          .str "Study Department".toList, .str "Car Type".toList, .str "Car Number".toList,
          .str "License Image".toList] ∧
      ∀ (i : Nat) (doc : Document), w.documents[i]? = some doc →
        ws.rows[i + 1]? = some
          [doc.first_name, doc.last_name, doc.email, doc.student_id, doc.phone_number,
            doc.Study_Department, doc.car_type, doc.car_number, doc.licenseImage] := by
  have hne : w.documents ≠ [] := by
    intro e
    rw [e] at h
    exact absurd h (by decide)
  rw [getDocumentsExcel_of_ne_nil w hne]
  refine ⟨_, rfl, rfl, ?_, ?_, ?_⟩
  · simp
  · simp [excelColumns]
  · intro i doc hi
    simp only [List.getElem?_cons_succ, List.getElem?_map, hi, Option.map_some']

/-- C11 on the sample state, of one stored application. -/
theorem getDocumentsExcel_rows_sample :
    ∃ ws : Worksheet,
      (getDocumentsExcel sampleWorld).status = 200 ∧
      (getDocumentsExcel sampleWorld).payload = .workbook { worksheets := [ws] } ∧
      ws.rows.length = sampleWorld.documents.length + 1 ∧
      ws.rows[0]? = some
        [.str "First Name".toList, .str "Last Name".toList, .str "Email".toList,
          .str "Student ID".toList, .str "Phone Number".toList,
          .str "Study Department".toList, .str "Car Type".toList, .str "Car Number".toList,
          .str "License Image".toList] ∧
      ∀ (i : Nat) (doc : Document), sampleWorld.documents[i]? = some doc →
        ws.rows[i + 1]? = some
          [doc.first_name, doc.last_name, doc.email, doc.student_id, doc.phone_number,
            doc.Study_Department, doc.car_type, doc.car_number, doc.licenseImage] :=
  getDocumentsExcel_rows sampleWorld (by decide)

/-- C12: when the store holds no application, the export answers 404 with the
message `No documents found to generate Excel file.`; it sets no header of the
download and its payload is that JSON message, not a workbook. -/
theorem getDocumentsExcel_empty (w : World) (h : w.documents = []) :
    getDocumentsExcel w =
      { status := 404, headers := [],
        payload := .json (.message "No documents found to generate Excel file.") } ∧
    ∀ wb : Workbook, (getDocumentsExcel w).payload ≠ .workbook wb := by
  have h1 : getDocumentsExcel w =
      { status := 404, headers := [],
        payload := .json (.message "No documents found to generate Excel file.") } := by
    simp [getDocumentsExcel, h]
  refine ⟨h1, fun wb => ?_⟩
  rw [h1]
  simp

/-- C12 on the empty state. -/
theorem getDocumentsExcel_empty_world :
    getDocumentsExcel World.empty =
      { status := 404, headers := [],
        payload := .json (.message "No documents found to generate Excel file.") } ∧
    ∀ wb : Workbook, (getDocumentsExcel World.empty).payload ≠ .workbook wb :=
  getDocumentsExcel_empty World.empty rfl

/-! ### Router -/

/-- The route found for `GET /documents/excel`: the read route of a student,
registered before the export route, with `excel` as the student id. -/
theorem findRoute_excel : findRoute excelRequest documentRoutes =
    some (.readDocument, ["excel".toList]) := by
  decide

theorem dispatch_excel_eq_getDocument (w : World) :
    dispatch excelRequest w = some (getDocument "excel".toList w, w) := by
  simp only [dispatch, findRoute_excel, runHandler, List.headD_cons]

/-- C13, at the failing input: with one application stored, the export handler
itself answers 200 with the header `Content-Disposition: attachment;
filename=Documents.xlsx`, and the request `GET /documents/excel` dispatched
through the router is answered by the read route of a student, with 404 and the
message `No document found for this student.`. -/
theorem dispatch_excel_answered_by_read_route :
    (getDocumentsExcel sampleWorld).status = 200 ∧
    ("Content-Disposition", "attachment; filename=Documents.xlsx") ∈
      (getDocumentsExcel sampleWorld).headers ∧
    dispatch excelRequest sampleWorld =
      some ({ status := 404, headers := [],
              payload := .json (.message "No document found for this student.") },
        sampleWorld) := by
  refine ⟨by decide, by decide, by decide⟩

/-! ### Roster page -/

/-- The search result of `handleSearch`: the first user, in roster order, whose
student id as a text equals the search input. -/
theorem handleSearch_filteredUser_some (st : PageState) (u : User) :
    (handleSearch st).filteredUser = some u ↔
      ∃ before after, st.users = before ++ u :: after ∧
        (∀ x ∈ before, x.student_id.toText ≠ st.searchId) ∧
        u.student_id.toText = st.searchId := by
  simp only [handleSearch, List.find?_eq_some, beq_iff_eq, Bool.not_eq_true', beq_eq_false_iff_ne,
    ne_eq]
  constructor
  · rintro ⟨hu, before, after, hsplit, hbefore⟩
    exact ⟨before, after, hsplit, hbefore, hu⟩
  · rintro ⟨before, after, hsplit, hbefore, hu⟩
    exact ⟨hu, before, after, hsplit, hbefore⟩

theorem handleSearch_filteredUser_none (st : PageState) :
    (handleSearch st).filteredUser = none ↔
      ∀ x ∈ st.users, x.student_id.toText ≠ st.searchId := by
  simp only [handleSearch, List.find?_eq_none, beq_iff_eq, ne_eq]

/-- C14: for every roster and every search input, `handleSearch` sets the
search result to the first user, in roster order, whose `student_id` converted
to a string equals the input exactly, and to `null` exactly when no user
matches; the result holds at most one user, and the roster and the input are
left as they were. -/
theorem handleSearch_first_match (st : PageState) :
    (∀ u : User, (handleSearch st).filteredUser = some u ↔
      ∃ before after, st.users = before ++ u :: after ∧
        (∀ x ∈ before, x.student_id.toText ≠ st.searchId) ∧
        u.student_id.toText = st.searchId) ∧
    ((handleSearch st).filteredUser = none ↔
      ∀ x ∈ st.users, x.student_id.toText ≠ st.searchId) ∧
    (handleSearch st).users = st.users ∧
    (handleSearch st).searchId = st.searchId ∧
    (handleSearch st).isSearchPerformed = true :=
  ⟨handleSearch_filteredUser_some st, handleSearch_filteredUser_none st, rfl, rfl, rfl⟩

theorem promote_user_idem (n : JsVal) (u : User) :
    (fun user : User =>
        if user.username = n then { user with is_admin := some true } else user)
      ((fun user : User =>
        if user.username = n then { user with is_admin := some true } else user) u) =
    (fun user : User =>
        if user.username = n then { user with is_admin := some true } else user) u := by
  by_cases h : u.username = n
  · simp [h]
  · simp [h]

/-- C15: the update of a successful promotion is idempotent. For every roster
and every username `n`, applying it twice gives the same state, roster and
search result, as applying it once; the roster keeps its length and its order,
every user keeps every field other than `is_admin`, every user whose username
is `n` has `is_admin = true`, and every other user is unchanged. -/
theorem handlePromoteToAdmin_idempotent (n : JsVal) (st : PageState) :
    (handlePromoteToAdmin n true (handlePromoteToAdmin n true st).1).1 =
      (handlePromoteToAdmin n true st).1 ∧
    (handlePromoteToAdmin n true st).1.users.length = st.users.length ∧
    ∀ (i : Nat) (u : User), st.users[i]? = some u →
      ∃ v : User, (handlePromoteToAdmin n true st).1.users[i]? = some v ∧
        v._id = u._id ∧ v.username = u.username ∧ v.first_name = u.first_name ∧
        v.last_name = u.last_name ∧ v.student_id = u.student_id ∧ v.email = u.email ∧
        (u.username = n → v.is_admin = some true) ∧ (u.username ≠ n → v = u) := by
  refine ⟨?_, ?_, ?_⟩
  · simp only [handlePromoteToAdmin, Bool.not_true, Bool.false_eq_true, if_false, List.map_map]
    congr 1
    · apply List.map_congr_left
      intro u _
      exact promote_user_idem n u
    · cases st.filteredUser with
      | none => rfl
      | some fu =>
        by_cases h : fu.username = n
        · simp [h]
        · simp [h]
  · simp [handlePromoteToAdmin]
  · intro i u hu
    simp only [handlePromoteToAdmin, Bool.not_true, Bool.false_eq_true, if_false,
      List.getElem?_map, hu, Option.map_some']
    by_cases h : u.username = n
    · exact ⟨_, rfl, by simp [h]⟩
    · exact ⟨_, rfl, by simp [h]⟩

/-- The promotion of `dana` on the sample roster, with the search result set:
the first user becomes an administrator, the others are as they were. -/
theorem handlePromoteToAdmin_sample :
    (handlePromoteToAdmin (.str "dana".toList) true
      { users := sampleUsers, searchId := "111".toList, filteredUser := sampleUsers.head?,
        isSearchPerformed := true }).1.users.map (fun u => u.is_admin) =
      [some true, none, some true] := by
  decide

/-- C16: for every roster and every search input, the users shown after a
search are the one-element list holding the match when a user matches, and the
entire roster when no user matches; so the row `No users found.` is shown after
a search exactly when the roster itself is empty. -/
theorem displayedUsers_after_search (st : PageState) :
    ((∃ x ∈ st.users, x.student_id.toText = st.searchId) →
      ∃ u : User, (handleSearch st).filteredUser = some u ∧
        displayedUsers (handleSearch st) = [u]) ∧
    ((∀ x ∈ st.users, x.student_id.toText ≠ st.searchId) →
      displayedUsers (handleSearch st) = st.users) ∧
    (tableBody (handleSearch st) = .noUsersFound ↔ st.users = []) := by
  have hdisp : ∀ u, (handleSearch st).filteredUser = some u →
      displayedUsers (handleSearch st) = [u] := by
    intro u hu
    simp only [displayedUsers, hu]
    rfl
  have hnone : (handleSearch st).filteredUser = none →
      displayedUsers (handleSearch st) = st.users := by
    intro hu
    simp only [displayedUsers, hu]
    rfl
  refine ⟨?_, ?_, ?_⟩
  · rintro ⟨x, hx, hq⟩
    cases hf : (handleSearch st).filteredUser with
    | none => exact absurd hq ((handleSearch_filteredUser_none st).1 hf x hx)
    | some u => exact ⟨u, rfl, hdisp u hf⟩
  · intro h
    exact hnone ((handleSearch_filteredUser_none st).2 h)
  · unfold tableBody
    cases hf : (handleSearch st).filteredUser with
    | none =>
      rw [hnone hf]
      cases st.users with
      | nil => simp
      | cons a rest => simp
    | some u =>
      rw [hdisp u hf]
      have hmem : u ∈ st.users := by
        obtain ⟨before, after, hsplit, _, _⟩ := (handleSearch_filteredUser_some st u).1 hf
        rw [hsplit]
        simp
      have hne : st.users ≠ [] := List.ne_nil_of_mem hmem
      simp [hne]

/-- The sample roster searched for an id no user has: every user is shown. -/
theorem displayedUsers_after_search_sample :
    displayedUsers (handleSearch
      { users := sampleUsers, searchId := "999".toList, filteredUser := none,
        isSearchPerformed := false }) = sampleUsers := by
  decide


end ParkingPermit
